import Mathlib

/-!
# Software framebuffer pixel pipeline

A shallow embedding of `src/video_core/renderer_software/sw_framebuffer.cpp`:
the colour and depth/stencil accessors, the shadow-map update, the blend evaluator, the
stencil actions and the logic operations.

Conventions of the embedding.

* A `u8` is a `Fin 256`; wider machine integers are `Nat` (or `Int` for the signed
  intermediate of the blend evaluator) with the reduction modulo `2^32` written out
  where the C++ arithmetic is done in `u32`.
* `u8* p` is a pair of a `Memory` and an address; `p[i]` is the byte at `p + i`.
  A function writing through a pointer returns the new memory.
* A function that can reach `UNIMPLEMENTED()` returns `Except Fault _`.
-/

namespace SwRenderer

/-- An 8-bit unsigned machine integer. -/
abbrev U8 := Fin 256

/-- Conversion of an unsigned value to `u8` (reduction modulo 256). -/
def toU8 (n : Nat) : U8 := ⟨n % 256, Nat.mod_lt n (by decide)⟩

/-- Modelled from the spec: the byte-addressable memory behind
`memory.GetPhysicalPointer` (`core/memory.h`, not among the sources), a byte at every
address; the pointer of a physical address is that address. -/
abbrev Memory := Nat → U8

/-- The assignment `p[0] = b` on a byte pointer `p`. -/
def writeByte (m : Memory) (p : Nat) (b : U8) : Memory :=
  fun a => if a = p then b else m a

/-- Modelled from the spec: the fatal conditions. `Unimplemented` is the stop of the macro
`UNIMPLEMENTED()` (`common/assert.h`, not among the sources) that follows each
`LOG_CRITICAL`: an unsupported selector is fatal, an unrecoverable stop. `Unreachable` is
the macro `UNREACHABLE()` of the same header, the stop after the `switch` of `LogicOp`. -/
inductive Fault where
  | Unimplemented
  | Unreachable
  deriving DecidableEq, Repr

deriving instance DecidableEq for Except

/-- Modelled from the spec: the statement `UNIMPLEMENTED();` (macro of `common/assert.h`,
not among the sources). The spec makes it the fatal, unrecoverable stop, so the statements
that follow it in the source are not executed; they are kept in the embedding as the
continuation bound after it. -/
def UNIMPLEMENTED : Except Fault Unit := .error Fault.Unimplemented

/-- Modelled from the spec: the selector `FramebufferRegs::ColorFormat`
(`video_core/regs_framebuffer.h`, not among the sources), with the five formats named in
the `switch` of `DrawPixel`; `Unknown` stands for every raw value outside them. -/
inductive ColorFormat where
  | RGBA8
  | RGB8
  | RGB5A1
  | RGB565
  | RGBA4
  | Unknown (raw : Nat)
  deriving DecidableEq, Repr

/-- Modelled from the spec: the selector `FramebufferRegs::DepthFormat`
(`video_core/regs_framebuffer.h`, not among the sources), with the three formats named in
the `switch` of `SetDepth`; `Unknown` stands for every raw value outside them. -/
inductive DepthFormat where
  | D16
  | D24
  | D24S8
  | Unknown (raw : Nat)
  deriving DecidableEq, Repr

/-- Modelled from the spec: the register snapshot read by the accessors
(`video_core/regs_framebuffer.h`, not among the sources): `regs.framebuffer` (formats,
dimensions, the physical addresses of the two buffers) and the two raw coefficients of
`regs.shadow`. -/
structure FramebufferConfig where
  color_format : ColorFormat
  depth_format : DepthFormat
  width : Nat
  height : Nat
  color_addr : Nat
  depth_addr : Nat
  constant : Nat
  linear : Nat
  deriving Repr

/-- Modulus of `u32` arithmetic. -/
def U32 : Nat := 4294967296

/-- Modelled from the spec: `FramebufferRegs::BytesPerDepthPixel` (declared in
`video_core/regs_framebuffer.h`, not among the sources). D16 is a 16-bit value, D24 is
packed in 3 bytes, D24S8 in 4 bytes; a selector outside the supported set is the fatal
UnsupportedFormat condition. -/
def BytesPerDepthPixel : DepthFormat → Except Fault Nat
  | .D16 => .ok 2
  | .D24 => .ok 3
  | .D24S8 => .ok 4
  | .Unknown _ => .error Fault.Unimplemented

/-- Modelled from the spec: the bit interleave of `VideoCore::GetMortonOffset`
(`video_core/utils.h`, not among the sources): the Z-order index of a pixel inside its
8x8 tile, the three low bits of `x` on the even positions and those of `y` on the odd
positions. -/
def MortonInterleave (x y : Nat) : Nat :=
  (x % 2) + 2 * (y % 2) + 4 * (x / 2 % 2) + 8 * (y / 2 % 2) +
    16 * (x / 4 % 2) + 32 * (y / 4 % 2)

/-- Modelled from the spec: `VideoCore::GetMortonOffset` (`video_core/utils.h`, not among
the sources): the offset inside an 8-pixel-tall band, the 8x8 tiles of the band following
each other along `x`, scaled by the bytes per pixel, in `u32` arithmetic. -/
def GetMortonOffset (x y bytes_per_pixel : Nat) : Nat :=
  let coarse_x := x &&& 4294967288
  let i := MortonInterleave x y
  let offset := coarse_x * 8 % U32
  (i + offset) % U32 * bytes_per_pixel % U32

/-- Conversion of an `int` to `u32`. -/
def intToU32 (n : Int) : Nat := (n % 4294967296).toNat

/-- The statement `y = framebuffer.height - y`, as the `u32` bit pattern left in `y`. -/
def flipY (height : Nat) (y : Int) : Nat := intToU32 ((height : Int) - y)

/-- The offset computed by every accessor:
`GetMortonOffset(x, y, bytes_per_pixel) + coarse_y * width * bytes_per_pixel`
with `y = height - y` and `coarse_y = y & ~7`, in `u32` arithmetic. -/
def pixelOffset (cfg : FramebufferConfig) (x y : Int) (bytes_per_pixel : Nat) : Nat :=
  let y1 := flipY cfg.height y
  let coarse_y := y1 &&& 4294967288
  (GetMortonOffset (intToU32 x) y1 bytes_per_pixel +
    coarse_y * cfg.width % U32 * bytes_per_pixel % U32) % U32

/-! ## Shadow-map word (anonymous namespace of the source) -/

/-- The function `DecodeD24S8Shadow`: big-endian 24-bit depth and the stencil byte. -/
def DecodeD24S8Shadow (m : Memory) (bytes : Nat) : Nat × Nat :=
  ((((m bytes).val <<< 16) ||| ((m (bytes + 1)).val <<< 8) ||| (m (bytes + 2)).val) % U32,
    (m (bytes + 3)).val)

/-- The function `EncodeD24X8Shadow`: writes bytes 2, 1, 0 in that order. -/
def EncodeD24X8Shadow (depth : Nat) (m : Memory) (bytes : Nat) : Memory :=
  let m1 := writeByte m (bytes + 2) (toU8 (depth &&& 0xFF))
  let m2 := writeByte m1 (bytes + 1) (toU8 ((depth >>> 8) &&& 0xFF))
  writeByte m2 bytes (toU8 ((depth >>> 16) &&& 0xFF))

/-- The function `EncodeX24S8Shadow`: writes byte 3. -/
def EncodeX24S8Shadow (stencil : U8) (m : Memory) (bytes : Nat) : Memory :=
  writeByte m (bytes + 3) stencil

/-! ## Depth/stencil codec of `Common::Color` -/

/-- Modelled from the spec: `Common::Color::DecodeD16` (`common/color.h`, not among the
sources): a 16-bit plain depth, low byte first. -/
def DecodeD16 (m : Memory) (bytes : Nat) : Nat :=
  (m bytes).val ||| ((m (bytes + 1)).val <<< 8)

/-- Modelled from the spec: `Common::Color::DecodeD24` (`common/color.h`, not among the
sources): a 24-bit depth packed in 3 bytes, low byte first. -/
def DecodeD24 (m : Memory) (bytes : Nat) : Nat :=
  ((m (bytes + 2)).val <<< 16) ||| ((m (bytes + 1)).val <<< 8) ||| (m bytes).val

/-- Modelled from the spec: `Common::Color::DecodeD24S8` (`common/color.h`, not among the
sources): 24-bit depth and 8-bit stencil packed in 4 bytes; by the comment on
`DecodeD24S8Shadow` the layout is that of the shadow word with the depth field
little-endian instead of big-endian. -/
def DecodeD24S8 (m : Memory) (bytes : Nat) : Nat × Nat :=
  (((m (bytes + 2)).val <<< 16) ||| ((m (bytes + 1)).val <<< 8) ||| (m bytes).val,
    (m (bytes + 3)).val)

/-- Modelled from the spec: `Common::Color::EncodeD16` (`common/color.h`, not among the
sources): stores the low 16 bits of the value, low byte first. -/
def EncodeD16 (value : Nat) (m : Memory) (bytes : Nat) : Memory :=
  let m1 := writeByte m bytes (toU8 (value &&& 0xFF))
  writeByte m1 (bytes + 1) (toU8 ((value >>> 8) &&& 0xFF))

/-- Modelled from the spec: `Common::Color::EncodeD24` (`common/color.h`, not among the
sources): stores the low 24 bits of the value in 3 bytes, low byte first. -/
def EncodeD24 (value : Nat) (m : Memory) (bytes : Nat) : Memory :=
  let m1 := writeByte m bytes (toU8 (value &&& 0xFF))
  let m2 := writeByte m1 (bytes + 1) (toU8 ((value >>> 8) &&& 0xFF))
  writeByte m2 (bytes + 2) (toU8 ((value >>> 16) &&& 0xFF))

/-- Modelled from the spec: `Common::Color::EncodeD24X8` (`common/color.h`, not among the
sources): stores the depth field of a D24S8 word and leaves the stencil byte alone (the
two fields are independently addressable). -/
def EncodeD24X8 (depth : Nat) (m : Memory) (bytes : Nat) : Memory :=
  let m1 := writeByte m bytes (toU8 (depth &&& 0xFF))
  let m2 := writeByte m1 (bytes + 1) (toU8 ((depth >>> 8) &&& 0xFF))
  writeByte m2 (bytes + 2) (toU8 ((depth >>> 16) &&& 0xFF))

/-- Modelled from the spec: `Common::Color::EncodeX24S8` (`common/color.h`, not among the
sources): stores the stencil byte of a D24S8 word and leaves the depth field alone. -/
def EncodeX24S8 (stencil : U8) (m : Memory) (bytes : Nat) : Memory :=
  writeByte m (bytes + 3) stencil

/-! ## Depth/stencil accessors of `Framebuffer` -/

/-- The method `Framebuffer::GetDepth`; the `default` branch is `UNIMPLEMENTED();`
followed by `return 0;`. -/
def GetDepth (cfg : FramebufferConfig) (m : Memory) (x y : Int) : Except Fault Nat :=
  match BytesPerDepthPixel cfg.depth_format with
  | .error e => .error e
  | .ok bytes_per_pixel =>
    let src_pixel := cfg.depth_addr + pixelOffset cfg x y bytes_per_pixel
    match cfg.depth_format with
    | .D16 => .ok (DecodeD16 m src_pixel)
    | .D24 => .ok (DecodeD24 m src_pixel)
    | .D24S8 => .ok (DecodeD24S8 m src_pixel).1
    | .Unknown _ => UNIMPLEMENTED.bind (fun _ => .ok 0)

/-- The method `Framebuffer::GetStencil`; the `default` branch only logs a warning. -/
def GetStencil (cfg : FramebufferConfig) (m : Memory) (x y : Int) : Except Fault U8 :=
  match BytesPerDepthPixel cfg.depth_format with
  | .error e => .error e
  | .ok bytes_per_pixel =>
    let src_pixel := cfg.depth_addr + pixelOffset cfg x y bytes_per_pixel
    match cfg.depth_format with
    | .D24S8 => .ok (toU8 (DecodeD24S8 m src_pixel).2)
    | _ => .ok 0

/-- The method `Framebuffer::SetDepth`; the `default` branch is `UNIMPLEMENTED();`
followed by `break;`. -/
def SetDepth (cfg : FramebufferConfig) (m : Memory) (x y : Int) (value : Nat) :
    Except Fault Memory :=
  match BytesPerDepthPixel cfg.depth_format with
  | .error e => .error e
  | .ok bytes_per_pixel =>
    let dst_pixel := cfg.depth_addr + pixelOffset cfg x y bytes_per_pixel
    match cfg.depth_format with
    | .D16 => .ok (EncodeD16 value m dst_pixel)
    | .D24 => .ok (EncodeD24 value m dst_pixel)
    | .D24S8 => .ok (EncodeD24X8 value m dst_pixel)
    | .Unknown _ => UNIMPLEMENTED.bind (fun _ => .ok m)

/-- The method `Framebuffer::SetStencil`; the `default` branch is `UNIMPLEMENTED();`
followed by `break;`. -/
def SetStencil (cfg : FramebufferConfig) (m : Memory) (x y : Int) (value : U8) :
    Except Fault Memory :=
  match BytesPerDepthPixel cfg.depth_format with
  | .error e => .error e
  | .ok bytes_per_pixel =>
    let dst_pixel := cfg.depth_addr + pixelOffset cfg x y bytes_per_pixel
    match cfg.depth_format with
    | .D16 => .ok m
    | .D24 => .ok m
    | .D24S8 => .ok (EncodeX24S8 value m dst_pixel)
    | .Unknown _ => UNIMPLEMENTED.bind (fun _ => .ok m)

/-! ## Shadow-map update -/

/-- The method `Framebuffer::DrawShadowMapPixel`. The reduced-precision floating-point
computation of the attenuated stencil (the `f16` arithmetic, the clamp to `[0, 255]` and
the cast to `u8`) is the parameter `attenuate`, applied to the raw shadow coefficients
`constant` and `linear`, the incoming depth, the stored depth and the incoming stencil. -/
def DrawShadowMapPixel (attenuate : Nat → Nat → Nat → Nat → U8 → U8)
    (cfg : FramebufferConfig) (m : Memory) (x y : Int) (depth : Nat) (stencil : U8) :
    Memory :=
  let bytes_per_pixel := 4
  let dst_pixel := cfg.color_addr + pixelOffset cfg x y bytes_per_pixel
  let ref := DecodeD24S8Shadow m dst_pixel
  let ref_z := ref.1
  let ref_s := ref.2
  if depth ≥ ref_z then m
  else if stencil = 0 then EncodeD24X8Shadow depth m dst_pixel
  else
    let stencil1 := attenuate cfg.constant cfg.linear depth ref_z stencil
    if stencil1.val < ref_s then EncodeX24S8Shadow stencil1 m dst_pixel else m

/-- The address of the shadow word that `DrawShadowMapPixel` reads and updates. -/
def shadowPixelAddr (cfg : FramebufferConfig) (x y : Int) : Nat :=
  cfg.color_addr + pixelOffset cfg x y 4

/-! ## Blend evaluator -/

/-- Modelled from the spec: the class `Common::Vec4` (`common/vector_math.h`, not among
the sources), four channels read through the accessors `r`, `g`, `b`, `a`. -/
structure Vec4 (α : Type) where
  r : α
  g : α
  b : α
  a : α
  deriving DecidableEq, Repr

/-- Component `i` of a vector (`0` is `r`, `3` is `a`). -/
def Vec4.get {α : Type} (v : Vec4 α) : Fin 4 → α
  | 0 => v.r
  | 1 => v.g
  | 2 => v.b
  | 3 => v.a

/-- Modelled from the spec: `operator*` of `Vec4<u8>` followed by `Cast<s32>`
(`common/vector_math.h`, not among the sources): each channel of one colour times the same
channel of the other, as a signed 32-bit integer (no reduction modulo 256). -/
def Vec4.mulU8 (v w : Vec4 U8) : Vec4 Int :=
  ⟨(v.r.val : Int) * w.r.val, (v.g.val : Int) * w.g.val, (v.b.val : Int) * w.b.val,
    (v.a.val : Int) * w.a.val⟩

/-- Modelled from the spec: `operator+` of `Vec4<s32>` (`common/vector_math.h`, not among
the sources), channel by channel. -/
def Vec4.add (v w : Vec4 Int) : Vec4 Int := ⟨v.r + w.r, v.g + w.g, v.b + w.b, v.a + w.a⟩

/-- Modelled from the spec: `operator-` of `Vec4<s32>` (`common/vector_math.h`, not among
the sources), channel by channel. -/
def Vec4.sub (v w : Vec4 Int) : Vec4 Int := ⟨v.r - w.r, v.g - w.g, v.b - w.b, v.a - w.a⟩

/-- Modelled from the spec: `operator/` of `Vec4<s32>` by a scalar
(`common/vector_math.h`, not among the sources): integer division of every channel,
truncating. -/
def Vec4.divScalar (v : Vec4 Int) (f : Int) : Vec4 Int :=
  ⟨Int.tdiv v.r f, Int.tdiv v.g f, Int.tdiv v.b f, Int.tdiv v.a f⟩

/-- The function `std::clamp(v, lo, hi)`. -/
def clamp (v lo hi : Int) : Int := if v < lo then lo else if hi < v then hi else v

/-- Conversion of an `int` to `u8`. -/
def intToU8 (n : Int) : U8 := toU8 (n % 256).toNat

/-- Modelled from the spec: the selector `FramebufferRegs::BlendEquation`
(`video_core/regs_framebuffer.h`, not among the sources), with the five equations named in
the `switch` of `EvaluateBlendEquation`; `Unknown` stands for every raw value outside
them. -/
inductive BlendEquation where
  | Add
  | Subtract
  | ReverseSubtract
  | Min
  | Max
  | Unknown (raw : Nat)
  deriving DecidableEq, Repr

/-- Modelled from the spec: the value of the local `Common::Vec4i result;` of
`EvaluateBlendEquation` while no `case` has assigned it. The constructor of `Vec4` is in
`common/vector_math.h`, not among the sources, and the spec does not describe it; zero in
every channel stands for it. It is read only on the path that continues after
`UNIMPLEMENTED()`. -/
def resultUnassigned : Vec4 Int := ⟨0, 0, 0, 0⟩

/-- The function `EvaluateBlendEquation`. The `default` branch is `UNIMPLEMENTED();` and
then leaves the `switch`, so that the final `return` clamps the unassigned `result`. -/
def EvaluateBlendEquation (src srcfactor dest destfactor : Vec4 U8)
    (equation : BlendEquation) : Except Fault (Vec4 U8) :=
  let src_result := Vec4.mulU8 src srcfactor
  let dst_result := Vec4.mulU8 dest destfactor
  let result : Except Fault (Vec4 Int) :=
    match equation with
    | .Add => .ok (Vec4.divScalar (Vec4.add src_result dst_result) 255)
    | .Subtract => .ok (Vec4.divScalar (Vec4.sub src_result dst_result) 255)
    | .ReverseSubtract => .ok (Vec4.divScalar (Vec4.sub dst_result src_result) 255)
    | .Min =>
      .ok ⟨((min src.r dest.r).val : Int), ((min src.g dest.g).val : Int),
        ((min src.b dest.b).val : Int), ((min src.a dest.a).val : Int)⟩
    | .Max =>
      .ok ⟨((max src.r dest.r).val : Int), ((max src.g dest.g).val : Int),
        ((max src.b dest.b).val : Int), ((max src.a dest.a).val : Int)⟩
    | .Unknown _ => UNIMPLEMENTED.bind (fun _ => .ok resultUnassigned)
  match result with
  | .error e => .error e
  | .ok result =>
    .ok ⟨intToU8 (clamp result.r 0 255), intToU8 (clamp result.g 0 255),
      intToU8 (clamp result.b 0 255), intToU8 (clamp result.a 0 255)⟩

/-- The product `color_c * factor_c` of channel `c` of a colour and of its blend factor, the
value of that channel in `src_result` and `dst_result`. -/
def blendTerm (color factor : Vec4 U8) (c : Fin 4) : Nat :=
  (color.get c).val * (factor.get c).val

/-! ## Stencil actions and logic operations -/

/-- Modelled from the spec: the selector `FramebufferRegs::StencilAction`
(`video_core/regs_framebuffer.h`, not among the sources), with the eight actions named in
the `switch` of `PerformStencilAction`; `Unknown` stands for every raw value outside
them. -/
inductive StencilAction where
  | Keep
  | Zero
  | Replace
  | Increment
  | Decrement
  | Invert
  | IncrementWrap
  | DecrementWrap
  | Unknown (raw : Nat)
  deriving DecidableEq, Repr

/-- The function `PerformStencilAction`; the `u8` operands are promoted to `int` by the
arithmetic and the result is converted back to `u8` on return. The `default` branch is
`UNIMPLEMENTED();` followed by `return 0;`. -/
def PerformStencilAction (action : StencilAction) (old_stencil ref : U8) : Except Fault U8 :=
  match action with
  | .Keep => .ok old_stencil
  | .Zero => .ok 0
  | .Replace => .ok ref
  | .Increment => .ok (intToU8 (((min old_stencil 254).val : Int) + 1))
  | .Decrement => .ok (intToU8 (((max old_stencil 1).val : Int) - 1))
  | .Invert => .ok (intToU8 (Int.lnot (old_stencil.val : Int)))
  | .IncrementWrap => .ok (intToU8 ((old_stencil.val : Int) + 1))
  | .DecrementWrap => .ok (intToU8 ((old_stencil.val : Int) - 1))
  | .Unknown _ => UNIMPLEMENTED.bind (fun _ => .ok 0)

/-- Modelled from the spec: the selector `FramebufferRegs::LogicOp`
(`video_core/regs_framebuffer.h`, not among the sources), with the sixteen operations named
in the `switch` of `LogicOp`; `Unknown` stands for every raw value outside them. -/
inductive FramebufferRegs.LogicOp where
  | Clear
  | And
  | AndReverse
  | Copy
  | Set
  | CopyInverted
  | NoOp
  | Invert
  | Nand
  | Or
  | Nor
  | Xor
  | Equiv
  | AndInverted
  | OrReverse
  | OrInverted
  | Unknown (raw : Nat)
  deriving DecidableEq, Repr

/-- The function `LogicOp`; the `u8` operands are promoted to `int` by the bitwise
operators and the result is converted back to `u8` on return. A selector matching no
`case` falls out of the `switch` onto `UNREACHABLE()`. -/
def LogicOp (src dest : U8) (op : FramebufferRegs.LogicOp) : Except Fault U8 :=
  match op with
  | .Clear => .ok 0
  | .And => .ok (intToU8 (Int.land src.val dest.val))
  | .AndReverse => .ok (intToU8 (Int.land src.val (Int.lnot dest.val)))
  | .Copy => .ok src
  | .Set => .ok 255
  | .CopyInverted => .ok (intToU8 (Int.lnot src.val))
  | .NoOp => .ok dest
  | .Invert => .ok (intToU8 (Int.lnot dest.val))
  | .Nand => .ok (intToU8 (Int.lnot (Int.land src.val dest.val)))
  | .Or => .ok (intToU8 (Int.lor src.val dest.val))
  | .Nor => .ok (intToU8 (Int.lnot (Int.lor src.val dest.val)))
  | .Xor => .ok (intToU8 (Int.xor src.val dest.val))
  | .Equiv => .ok (intToU8 (Int.lnot (Int.xor src.val dest.val)))
  | .AndInverted => .ok (intToU8 (Int.land (Int.lnot src.val) dest.val))
  | .OrReverse => .ok (intToU8 (Int.lor src.val (Int.lnot dest.val)))
  | .OrInverted => .ok (intToU8 (Int.lor (Int.lnot src.val) dest.val))
  | .Unknown _ => .error Fault.Unreachable

/-! ## Colour codec of `Common::Color` -/

/-- Modelled from the spec: `Common::Color::Convert1To8` (`common/color.h`, not among the
sources): a 1-bit channel expanded to 8 bits by replicating the bit. -/
def Convert1To8 (value : U8) : U8 := toU8 (value.val * 255)

/-- Modelled from the spec: `Common::Color::Convert4To8` (`common/color.h`, not among the
sources): a 4-bit channel expanded to 8 bits by bit replication. -/
def Convert4To8 (value : U8) : U8 := toU8 ((value.val <<< 4) ||| value.val)

/-- Modelled from the spec: `Common::Color::Convert5To8` (`common/color.h`, not among the
sources): a 5-bit channel expanded to 8 bits by bit replication. -/
def Convert5To8 (value : U8) : U8 := toU8 ((value.val <<< 3) ||| (value.val >>> 2))

/-- Modelled from the spec: `Common::Color::Convert6To8` (`common/color.h`, not among the
sources): a 6-bit channel expanded to 8 bits by bit replication. -/
def Convert6To8 (value : U8) : U8 := toU8 ((value.val <<< 2) ||| (value.val >>> 4))

/-- Modelled from the spec: `Common::Color::Convert8To1` (`common/color.h`, not among the
sources): an 8-bit channel truncated to its top bit. -/
def Convert8To1 (value : U8) : U8 := toU8 (value.val >>> 7)

/-- Modelled from the spec: `Common::Color::Convert8To4` (`common/color.h`, not among the
sources): an 8-bit channel truncated to its top 4 bits. -/
def Convert8To4 (value : U8) : U8 := toU8 (value.val >>> 4)

/-- Modelled from the spec: `Common::Color::Convert8To5` (`common/color.h`, not among the
sources): an 8-bit channel truncated to its top 5 bits. -/
def Convert8To5 (value : U8) : U8 := toU8 (value.val >>> 3)

/-- Modelled from the spec: `Common::Color::Convert8To6` (`common/color.h`, not among the
sources): an 8-bit channel truncated to its top 6 bits. -/
def Convert8To6 (value : U8) : U8 := toU8 (value.val >>> 2)

/-- Modelled from the spec: the load of a 2-byte pixel (`u16_le` read with `memcpy` in
`common/color.h`, not among the sources), low byte first. -/
def read16 (m : Memory) (bytes : Nat) : Nat :=
  (m bytes).val ||| ((m (bytes + 1)).val <<< 8)

/-- Modelled from the spec: the store of a 2-byte pixel (`u16_le` written with `memcpy` in
`common/color.h`, not among the sources): the value is converted to 16 bits and stored low
byte first. -/
def write16 (data : Nat) (m : Memory) (bytes : Nat) : Memory :=
  let m1 := writeByte m bytes (toU8 (data % 65536))
  writeByte m1 (bytes + 1) (toU8 ((data % 65536) >>> 8))

/-- Modelled from the spec: `Common::Color::DecodeRGBA8` (`common/color.h`, not among the
sources): 4 bytes, 8-8-8-8, red in the highest byte. -/
def DecodeRGBA8 (m : Memory) (bytes : Nat) : Vec4 U8 :=
  ⟨m (bytes + 3), m (bytes + 2), m (bytes + 1), m bytes⟩

/-- Modelled from the spec: `Common::Color::DecodeRGB8` (`common/color.h`, not among the
sources): 3 bytes, 8-8-8, alpha forced opaque. -/
def DecodeRGB8 (m : Memory) (bytes : Nat) : Vec4 U8 :=
  ⟨m (bytes + 2), m (bytes + 1), m bytes, 255⟩

/-- Modelled from the spec: `Common::Color::DecodeRGB5A1` (`common/color.h`, not among the
sources): 2 bytes, 5-5-5-1, every channel expanded by bit replication. -/
def DecodeRGB5A1 (m : Memory) (bytes : Nat) : Vec4 U8 :=
  let pixel := read16 m bytes
  ⟨Convert5To8 (toU8 ((pixel >>> 11) &&& 0x1F)), Convert5To8 (toU8 ((pixel >>> 6) &&& 0x1F)),
    Convert5To8 (toU8 ((pixel >>> 1) &&& 0x1F)), Convert1To8 (toU8 (pixel &&& 0x1))⟩

/-- Modelled from the spec: `Common::Color::DecodeRGB565` (`common/color.h`, not among the
sources): 2 bytes, 5-6-5, alpha forced opaque. -/
def DecodeRGB565 (m : Memory) (bytes : Nat) : Vec4 U8 :=
  let pixel := read16 m bytes
  ⟨Convert5To8 (toU8 ((pixel >>> 11) &&& 0x1F)), Convert6To8 (toU8 ((pixel >>> 5) &&& 0x3F)),
    Convert5To8 (toU8 (pixel &&& 0x1F)), 255⟩

/-- Modelled from the spec: `Common::Color::DecodeRGBA4` (`common/color.h`, not among the
sources): 2 bytes, 4-4-4-4, every channel expanded by bit replication. -/
def DecodeRGBA4 (m : Memory) (bytes : Nat) : Vec4 U8 :=
  let pixel := read16 m bytes
  ⟨Convert4To8 (toU8 ((pixel >>> 12) &&& 0xF)), Convert4To8 (toU8 ((pixel >>> 8) &&& 0xF)),
    Convert4To8 (toU8 ((pixel >>> 4) &&& 0xF)), Convert4To8 (toU8 (pixel &&& 0xF))⟩

/-- Modelled from the spec: `Common::Color::EncodeRGBA8` (`common/color.h`, not among the
sources): 4 bytes, 8-8-8-8, red in the highest byte. -/
def EncodeRGBA8 (color : Vec4 U8) (m : Memory) (bytes : Nat) : Memory :=
  let m1 := writeByte m (bytes + 3) color.r
  let m2 := writeByte m1 (bytes + 2) color.g
  let m3 := writeByte m2 (bytes + 1) color.b
  writeByte m3 bytes color.a

/-- Modelled from the spec: `Common::Color::EncodeRGB8` (`common/color.h`, not among the
sources): 3 bytes, 8-8-8, the alpha channel is not stored. -/
def EncodeRGB8 (color : Vec4 U8) (m : Memory) (bytes : Nat) : Memory :=
  let m1 := writeByte m (bytes + 2) color.r
  let m2 := writeByte m1 (bytes + 1) color.g
  writeByte m2 bytes color.b

/-- Modelled from the spec: `Common::Color::EncodeRGB5A1` (`common/color.h`, not among the
sources): 2 bytes, 5-5-5-1, every channel truncated to its top bits. -/
def EncodeRGB5A1 (color : Vec4 U8) (m : Memory) (bytes : Nat) : Memory :=
  let data := ((Convert8To5 color.r).val <<< 11) ||| ((Convert8To5 color.g).val <<< 6) |||
    ((Convert8To5 color.b).val <<< 1) ||| (Convert8To1 color.a).val
  write16 data m bytes

/-- Modelled from the spec: `Common::Color::EncodeRGB565` (`common/color.h`, not among the
sources): 2 bytes, 5-6-5, every channel truncated to its top bits, alpha not stored. -/
def EncodeRGB565 (color : Vec4 U8) (m : Memory) (bytes : Nat) : Memory :=
  let data := ((Convert8To5 color.r).val <<< 11) ||| ((Convert8To6 color.g).val <<< 5) |||
    (Convert8To5 color.b).val
  write16 data m bytes

/-- Modelled from the spec: `Common::Color::EncodeRGBA4` (`common/color.h`, not among the
sources): 2 bytes, 4-4-4-4, every channel truncated to its top bits. -/
def EncodeRGBA4 (color : Vec4 U8) (m : Memory) (bytes : Nat) : Memory :=
  let data := ((Convert8To4 color.r).val <<< 12) ||| ((Convert8To4 color.g).val <<< 8) |||
    ((Convert8To4 color.b).val <<< 4) ||| (Convert8To4 color.a).val
  write16 data m bytes

/-! ## Colour accessors of `Framebuffer` -/

/-- Modelled from the spec: `GPU::Regs::BytesPerPixel` applied to the colour format
(`core/hw/gpu.h`, not among the sources): RGBA8 takes 4 bytes, RGB8 3 bytes, RGB5A1,
RGB565 and RGBA4 2 bytes; a selector outside the supported set is the fatal
UnsupportedFormat condition. -/
def BytesPerPixel : ColorFormat → Except Fault Nat
  | .RGBA8 => .ok 4
  | .RGB8 => .ok 3
  | .RGB5A1 => .ok 2
  | .RGB565 => .ok 2
  | .RGBA4 => .ok 2
  | .Unknown _ => .error Fault.Unimplemented

/-- The method `Framebuffer::DrawPixel`; the `default` branch is `UNIMPLEMENTED();` and
then leaves the `switch` without a write. -/
def DrawPixel (cfg : FramebufferConfig) (m : Memory) (x y : Int) (color : Vec4 U8) :
    Except Fault Memory :=
  match BytesPerPixel cfg.color_format with
  | .error e => .error e
  | .ok bytes_per_pixel =>
    let dst_pixel := cfg.color_addr + pixelOffset cfg x y bytes_per_pixel
    match cfg.color_format with
    | .RGBA8 => .ok (EncodeRGBA8 color m dst_pixel)
    | .RGB8 => .ok (EncodeRGB8 color m dst_pixel)
    | .RGB5A1 => .ok (EncodeRGB5A1 color m dst_pixel)
    | .RGB565 => .ok (EncodeRGB565 color m dst_pixel)
    | .RGBA4 => .ok (EncodeRGBA4 color m dst_pixel)
    | .Unknown _ => UNIMPLEMENTED.bind (fun _ => .ok m)

/-- The method `Framebuffer::GetPixel`; the `default` branch is `UNIMPLEMENTED();` and
then leaves the `switch` for the final `return {0, 0, 0, 0};`. -/
def GetPixel (cfg : FramebufferConfig) (m : Memory) (x y : Int) : Except Fault (Vec4 U8) :=
  match BytesPerPixel cfg.color_format with
  | .error e => .error e
  | .ok bytes_per_pixel =>
    let src_pixel := cfg.color_addr + pixelOffset cfg x y bytes_per_pixel
    match cfg.color_format with
    | .RGBA8 => .ok (DecodeRGBA8 m src_pixel)
    | .RGB8 => .ok (DecodeRGB8 m src_pixel)
    | .RGB5A1 => .ok (DecodeRGB5A1 m src_pixel)
    | .RGB565 => .ok (DecodeRGB565 m src_pixel)
    | .RGBA4 => .ok (DecodeRGBA4 m src_pixel)
    | .Unknown _ => UNIMPLEMENTED.bind (fun _ => .ok ⟨0, 0, 0, 0⟩)

/-! ## Tiled address translator of the specification -/

/-- The specification's `Offset(x, y, bytesPerPixel, width, height)`, following its words:
flip `y1 = height - y`; the band of 8 rows is `y1` with its three low bits cleared
(`y1 & ~7`); the offset inside the band is the Morton function at `bytesPerPixel`; the
result is that offset plus `band * width * bytesPerPixel`, a 32-bit byte offset. -/
def Offset (x y : Int) (bytesPerPixel width height : Nat) : Nat :=
  let y1 := ((height : Int) - y).toNat
  let band := y1 - y1 % 8
  (GetMortonOffset (intToU32 x) y1 bytesPerPixel + band * width * bytesPerPixel) % U32

/-- The index of pixel `(x, y1)` in a tiled buffer of the given width, `y1` being the
flipped row: the Z-order index inside the 8x8 tile, plus 64 pixels for every tile to the
left in the band, plus `8 * width` pixels for every band above. The byte offset of the
pixel is this index times the bytes per pixel. -/
def pixelIndex (x y1 width : Nat) : Nat :=
  MortonInterleave x y1 + (x - x % 8) * 8 + (y1 - y1 % 8) * width

/-! ## Sample inputs -/

/-- A D24S8 configuration used to exercise the accessors on a concrete input. -/
def cfgD24S8 : FramebufferConfig :=
  { color_format := .RGBA8, depth_format := .D24S8, width := 8, height := 7,
    color_addr := 0, depth_addr := 4096, constant := 0, linear := 0 }

/-- A D16 configuration used to exercise the accessors on a concrete input. -/
def cfgD16 : FramebufferConfig :=
  { color_format := .RGBA8, depth_format := .D16, width := 8, height := 7,
    color_addr := 0, depth_addr := 4096, constant := 0, linear := 0 }

/-- A D24 configuration used to exercise the accessors on a concrete input. -/
def cfgD24 : FramebufferConfig :=
  { color_format := .RGBA8, depth_format := .D24, width := 8, height := 7,
    color_addr := 0, depth_addr := 4096, constant := 0, linear := 0 }

/-- A memory whose byte at address `a` is `a mod 256`. -/
def rampMemory : Memory := fun a => toU8 a

/-- A stand-in for the attenuation used only to run the shadow update on a concrete
input: it halves the incoming stencil. -/
def halveStencil : Nat → Nat → Nat → Nat → U8 → U8 :=
  fun _ _ _ _ s => toU8 (s.val / 2)

/-- An 8x8 tile: `width = 8`, `height = 8`, RGBA8 colour buffer at address 0. -/
def cfgTile8 : FramebufferConfig :=
  { color_format := .RGBA8, depth_format := .D24S8, width := 8, height := 8,
    color_addr := 0, depth_addr := 4096, constant := 0, linear := 0 }

/-- An RGB565 configuration used to exercise the colour accessors on a concrete input. -/
def cfgRGB565 : FramebufferConfig :=
  { color_format := .RGB565, depth_format := .D16, width := 8, height := 7,
    color_addr := 0, depth_addr := 4096, constant := 0, linear := 0 }

/-- A configuration whose colour and depth selectors are outside the supported sets. -/
def cfgUnknown : FramebufferConfig :=
  { color_format := .Unknown 7, depth_format := .Unknown 1, width := 8, height := 7,
    color_addr := 0, depth_addr := 4096, constant := 0, linear := 0 }

/-! ## Auxiliary facts: bytes and memory -/

theorem writeByte_same (m : Memory) (p : Nat) (b : U8) : writeByte m p b p = b := by
  simp [writeByte]

theorem writeByte_other (m : Memory) (p a : Nat) (b : U8) (h : a ≠ p) :
    writeByte m p b a = m a := by
  simp [writeByte, h]

theorem toU8_val (b : U8) : toU8 b.val = b := by
  apply Fin.ext
  simp [toU8, Nat.mod_eq_of_lt b.isLt]

theorem and_ff (n : Nat) : n &&& 0xFF = n % 256 :=
  Nat.and_pow_two_sub_one_eq_mod n 8

theorem toU8_low (v : Nat) : (toU8 (v &&& 0xFF)).val = v % 256 := by
  simp [toU8, and_ff]

theorem toU8_mid (v : Nat) : (toU8 ((v >>> 8) &&& 0xFF)).val = v / 256 % 256 := by
  simp [toU8, and_ff, Nat.shiftRight_eq_div_pow]

theorem toU8_high (v : Nat) : (toU8 ((v >>> 16) &&& 0xFF)).val = v / 65536 % 256 := by
  simp [toU8, and_ff, Nat.shiftRight_eq_div_pow]

/-- Three bytes or-ed together at shifts 16, 8 and 0 are their positional sum. -/
theorem or3_eq (hi mid lo : Nat) (hmid : mid < 256) (hlo : lo < 256) :
    (hi <<< 16) ||| (mid <<< 8) ||| lo = hi * 65536 + mid * 256 + lo := by
  have h1 : (hi <<< 16) ||| (mid <<< 8) = 2 ^ 16 * hi + mid <<< 8 := by
    rw [Nat.shiftLeft_eq hi 16, Nat.mul_comm hi (2 ^ 16)]
    exact (Nat.mul_add_lt_is_or (by rw [Nat.shiftLeft_eq]; omega) hi).symm
  have h2 : 2 ^ 16 * hi + mid <<< 8 = 2 ^ 8 * (256 * hi + mid) := by
    rw [Nat.shiftLeft_eq]; omega
  rw [h1, h2, ← Nat.mul_add_lt_is_or (by simpa using hlo)]
  omega

/-- Two bytes or-ed together at shifts 0 and 8 are their positional sum. -/
theorem or2_eq (lo hi : Nat) (hlo : lo < 256) : lo ||| (hi <<< 8) = hi * 256 + lo := by
  rw [Nat.lor_comm, Nat.shiftLeft_eq, Nat.mul_comm hi (2 ^ 8),
    ← Nat.mul_add_lt_is_or (by simpa using hlo)]

/-! ## Auxiliary facts: the D16 / D24 / D24S8 codec -/

theorem EncodeD24X8_stencil_byte (v : Nat) (m : Memory) (p : Nat) :
    EncodeD24X8 v m p (p + 3) = m (p + 3) := by
  simp [EncodeD24X8, writeByte]

theorem EncodeX24S8_depth_bytes (s : U8) (m : Memory) (p : Nat) :
    EncodeX24S8 s m p p = m p ∧ EncodeX24S8 s m p (p + 1) = m (p + 1) ∧
      EncodeX24S8 s m p (p + 2) = m (p + 2) := by
  simp [EncodeX24S8, writeByte]

theorem DecodeD24S8_EncodeD24X8 (v : Nat) (m : Memory) (p : Nat) :
    (DecodeD24S8 (EncodeD24X8 v m p) p).1 = v % 16777216 := by
  have h0 : (EncodeD24X8 v m p p).val = v % 256 := by
    simp [EncodeD24X8, writeByte, toU8_low]
  have h1 : (EncodeD24X8 v m p (p + 1)).val = v / 256 % 256 := by
    simp [EncodeD24X8, writeByte, toU8_mid]
  have h2 : (EncodeD24X8 v m p (p + 2)).val = v / 65536 % 256 := by
    simp [EncodeD24X8, writeByte, toU8_high]
  simp only [DecodeD24S8, h0, h1, h2]
  rw [or3_eq _ _ _ (Nat.mod_lt _ (by decide)) (Nat.mod_lt _ (by decide))]
  omega

theorem DecodeD24_EncodeD24 (v : Nat) (m : Memory) (p : Nat) :
    DecodeD24 (EncodeD24 v m p) p = v % 16777216 := by
  have h0 : (EncodeD24 v m p p).val = v % 256 := by
    simp [EncodeD24, writeByte, toU8_low]
  have h1 : (EncodeD24 v m p (p + 1)).val = v / 256 % 256 := by
    simp [EncodeD24, writeByte, toU8_mid]
  have h2 : (EncodeD24 v m p (p + 2)).val = v / 65536 % 256 := by
    simp [EncodeD24, writeByte, toU8_high]
  simp only [DecodeD24, h0, h1, h2]
  rw [or3_eq _ _ _ (Nat.mod_lt _ (by decide)) (Nat.mod_lt _ (by decide))]
  omega

theorem DecodeD16_EncodeD16 (v : Nat) (m : Memory) (p : Nat) :
    DecodeD16 (EncodeD16 v m p) p = v % 65536 := by
  have h0 : (EncodeD16 v m p p).val = v % 256 := by
    simp [EncodeD16, writeByte, toU8_low]
  have h1 : (EncodeD16 v m p (p + 1)).val = v / 256 % 256 := by
    simp [EncodeD16, writeByte, toU8_mid]
  simp only [DecodeD16, h0, h1]
  rw [or2_eq _ _ (Nat.mod_lt _ (by decide))]
  omega

/-! ## Depth/stencil accessors -/

/-- C1. D24S8 orthogonality: on a D24S8 depth buffer, for every memory, pixel, depth value
`v` (of any size, so also `v >= 2^24`) and stencil `s`, `SetDepth` succeeds and leaves the
result of `GetStencil` at that pixel as it was, and `SetStencil` succeeds and leaves the
result of `GetDepth` at that pixel as it was. -/
theorem D24S8_orthogonality (cfg : FramebufferConfig) (m : Memory) (x y : Int) (v : Nat)
    (s : U8) (hfmt : cfg.depth_format = DepthFormat.D24S8) :
    (∃ m1, SetDepth cfg m x y v = .ok m1 ∧ GetStencil cfg m1 x y = GetStencil cfg m x y) ∧
    (∃ m2, SetStencil cfg m x y s = .ok m2 ∧ GetDepth cfg m2 x y = GetDepth cfg m x y) := by
  refine ⟨⟨_, by simp [SetDepth, hfmt, BytesPerDepthPixel]; rfl, ?_⟩,
    ⟨_, by simp [SetStencil, hfmt, BytesPerDepthPixel]; rfl, ?_⟩⟩
  · simp [GetStencil, hfmt, BytesPerDepthPixel, DecodeD24S8, EncodeD24X8_stencil_byte]
  · obtain ⟨h0, h1, h2⟩ :=
      EncodeX24S8_depth_bytes s m (cfg.depth_addr + pixelOffset cfg x y 4)
    simp [GetDepth, hfmt, BytesPerDepthPixel, DecodeD24S8, h0, h1, h2]

theorem D24S8_orthogonality_witness :
    cfgD24S8.depth_format = DepthFormat.D24S8 ∧
    (∃ m1, SetDepth cfgD24S8 rampMemory 3 2 4278190080 = .ok m1 ∧
      GetStencil cfgD24S8 m1 3 2 = GetStencil cfgD24S8 rampMemory 3 2) ∧
    (∃ m2, SetStencil cfgD24S8 rampMemory 3 2 200 = .ok m2 ∧
      GetDepth cfgD24S8 m2 3 2 = GetDepth cfgD24S8 rampMemory 3 2) :=
  ⟨rfl, D24S8_orthogonality cfgD24S8 rampMemory 3 2 4278190080 200 rfl⟩


/-- C2. Depth read-after-write: for D16 with `v < 2^16`, for D24 with `v < 2^24` and for
D24S8 with `v < 2^24`, whatever the memory and the pixel, `SetDepth` succeeds and
`GetDepth` evaluated right after it returns `v`. -/
theorem depth_read_after_write (cfg : FramebufferConfig) (m : Memory) (x y : Int) (v : Nat)
    (h : (cfg.depth_format = DepthFormat.D16 ∧ v < 2 ^ 16) ∨
      (cfg.depth_format = DepthFormat.D24 ∧ v < 2 ^ 24) ∨
      (cfg.depth_format = DepthFormat.D24S8 ∧ v < 2 ^ 24)) :
    ∃ m1, SetDepth cfg m x y v = .ok m1 ∧ GetDepth cfg m1 x y = .ok v := by
  rcases h with ⟨hfmt, hv⟩ | ⟨hfmt, hv⟩ | ⟨hfmt, hv⟩
  · refine ⟨_, by simp [SetDepth, hfmt, BytesPerDepthPixel]; rfl, ?_⟩
    simp only [GetDepth, hfmt, BytesPerDepthPixel, DecodeD16_EncodeD16]
    rw [Nat.mod_eq_of_lt (by simpa using hv)]
  · refine ⟨_, by simp [SetDepth, hfmt, BytesPerDepthPixel]; rfl, ?_⟩
    simp only [GetDepth, hfmt, BytesPerDepthPixel, DecodeD24_EncodeD24]
    rw [Nat.mod_eq_of_lt (by simpa using hv)]
  · refine ⟨_, by simp [SetDepth, hfmt, BytesPerDepthPixel]; rfl, ?_⟩
    simp only [GetDepth, hfmt, BytesPerDepthPixel, DecodeD24S8_EncodeD24X8]
    rw [Nat.mod_eq_of_lt (by simpa using hv)]

theorem depth_read_after_write_witness :
    ((cfgD16.depth_format = DepthFormat.D16 ∧ 513 < 2 ^ 16) ∨
      (cfgD16.depth_format = DepthFormat.D24 ∧ 513 < 2 ^ 24) ∨
      (cfgD16.depth_format = DepthFormat.D24S8 ∧ 513 < 2 ^ 24)) ∧
    ∃ m1, SetDepth cfgD16 rampMemory 3 2 513 = .ok m1 ∧ GetDepth cfgD16 m1 3 2 = .ok 513 :=
  ⟨Or.inl ⟨rfl, by decide⟩,
    depth_read_after_write cfgD16 rampMemory 3 2 513 (Or.inl ⟨rfl, by decide⟩)⟩

/-- C3. Stencil read-after-write on D24S8: for every memory, pixel and 8-bit `s`,
`SetStencil` succeeds and `GetStencil` evaluated right after it returns `s`. -/
theorem stencil_read_after_write (cfg : FramebufferConfig) (m : Memory) (x y : Int) (s : U8)
    (hfmt : cfg.depth_format = DepthFormat.D24S8) :
    ∃ m1, SetStencil cfg m x y s = .ok m1 ∧ GetStencil cfg m1 x y = .ok s := by
  refine ⟨_, by simp [SetStencil, hfmt, BytesPerDepthPixel]; rfl, ?_⟩
  simp [GetStencil, hfmt, BytesPerDepthPixel, DecodeD24S8, EncodeX24S8, writeByte_same,
    toU8_val]

theorem stencil_read_after_write_witness :
    cfgD24S8.depth_format = DepthFormat.D24S8 ∧
    ∃ m1, SetStencil cfgD24S8 rampMemory 3 2 200 = .ok m1 ∧
      GetStencil cfgD24S8 m1 3 2 = .ok 200 :=
  ⟨rfl, stencil_read_after_write cfgD24S8 rampMemory 3 2 200 rfl⟩

/-- C4. `SetStencil` is a no-op on depth-only formats: when the depth format is D16 or
D24, for every memory, pixel and 8-bit value the call succeeds and returns the memory it
was given, unchanged. -/
theorem SetStencil_depth_only_noop (cfg : FramebufferConfig) (m : Memory) (x y : Int)
    (s : U8)
    (hfmt : cfg.depth_format = DepthFormat.D16 ∨ cfg.depth_format = DepthFormat.D24) :
    SetStencil cfg m x y s = .ok m := by
  rcases hfmt with hfmt | hfmt <;> simp [SetStencil, hfmt, BytesPerDepthPixel]

theorem SetStencil_depth_only_noop_witness :
    (cfgD16.depth_format = DepthFormat.D16 ∨ cfgD16.depth_format = DepthFormat.D24) ∧
    SetStencil cfgD16 rampMemory 3 2 200 = .ok rampMemory :=
  ⟨Or.inl rfl, SetStencil_depth_only_noop cfgD16 rampMemory 3 2 200 (Or.inl rfl)⟩

/-- C5. `GetStencil` on a depth-only format: when the depth format is D16 or D24, for
every memory and pixel the call returns the value 0 and not the fatal condition. -/
theorem GetStencil_depth_only_zero (cfg : FramebufferConfig) (m : Memory) (x y : Int)
    (hfmt : cfg.depth_format = DepthFormat.D16 ∨ cfg.depth_format = DepthFormat.D24) :
    GetStencil cfg m x y = .ok 0 := by
  rcases hfmt with hfmt | hfmt <;> simp [GetStencil, hfmt, BytesPerDepthPixel]

theorem GetStencil_depth_only_zero_witness :
    (cfgD24.depth_format = DepthFormat.D16 ∨ cfgD24.depth_format = DepthFormat.D24) ∧
    GetStencil cfgD24 rampMemory 3 2 = .ok 0 :=
  ⟨Or.inr rfl, GetStencil_depth_only_zero cfgD24 rampMemory 3 2 (Or.inr rfl)⟩

/-! ## Shadow-map word and update -/

theorem DecodeD24S8Shadow_eq (m : Memory) (p : Nat) :
    DecodeD24S8Shadow m p =
      ((m p).val * 65536 + (m (p + 1)).val * 256 + (m (p + 2)).val, (m (p + 3)).val) := by
  have h0 := (m p).isLt
  have h1 := (m (p + 1)).isLt
  have h2 := (m (p + 2)).isLt
  simp only [DecodeD24S8Shadow, U32]
  rw [or3_eq _ _ _ h1 h2, Nat.mod_eq_of_lt (by omega)]

theorem DecodeD24S8Shadow_depth_lt (m : Memory) (p : Nat) :
    (DecodeD24S8Shadow m p).1 < 16777216 := by
  have h0 := (m p).isLt
  have h1 := (m (p + 1)).isLt
  have h2 := (m (p + 2)).isLt
  rw [DecodeD24S8Shadow_eq]
  show (m p).val * 65536 + (m (p + 1)).val * 256 + (m (p + 2)).val < 16777216
  omega

theorem DecodeD24S8Shadow_EncodeD24X8Shadow (d : Nat) (m : Memory) (p : Nat) :
    DecodeD24S8Shadow (EncodeD24X8Shadow d m p) p = (d % 16777216, (m (p + 3)).val) := by
  have h0 : (EncodeD24X8Shadow d m p p).val = d / 65536 % 256 := by
    simp [EncodeD24X8Shadow, writeByte, toU8_high]
  have h1 : (EncodeD24X8Shadow d m p (p + 1)).val = d / 256 % 256 := by
    simp [EncodeD24X8Shadow, writeByte, toU8_mid]
  have h2 : (EncodeD24X8Shadow d m p (p + 2)).val = d % 256 := by
    simp [EncodeD24X8Shadow, writeByte, toU8_low]
  have h3 : EncodeD24X8Shadow d m p (p + 3) = m (p + 3) := by
    simp [EncodeD24X8Shadow, writeByte]
  rw [DecodeD24S8Shadow_eq, h0, h1, h2, h3]
  congr 1
  omega

theorem DecodeD24S8Shadow_EncodeX24S8Shadow (s : U8) (m : Memory) (p : Nat) :
    DecodeD24S8Shadow (EncodeX24S8Shadow s m p) p = ((DecodeD24S8Shadow m p).1, s.val) := by
  simp [DecodeD24S8Shadow, EncodeX24S8Shadow, writeByte]


/-- C6. Shadow test failure leaves the pixel untouched: if the incoming depth is at least
the depth decoded from the shadow word at the target address, `DrawShadowMapPixel`
returns the memory it was given, unchanged, whatever the stencil and the attenuation. -/
theorem shadow_test_fail_unchanged (attenuate : Nat → Nat → Nat → Nat → U8 → U8)
    (cfg : FramebufferConfig) (m : Memory) (x y : Int) (depth : Nat) (stencil : U8)
    (h : depth ≥ (DecodeD24S8Shadow m (shadowPixelAddr cfg x y)).1) :
    DrawShadowMapPixel attenuate cfg m x y depth stencil = m := by
  unfold shadowPixelAddr at h
  simp [DrawShadowMapPixel, h]

theorem shadow_test_fail_unchanged_witness :
    10263966 ≥ (DecodeD24S8Shadow rampMemory (shadowPixelAddr cfgD24S8 3 2)).1 ∧
    DrawShadowMapPixel halveStencil cfgD24S8 rampMemory 3 2 10263966 200 = rampMemory :=
  ⟨by decide,
    shadow_test_fail_unchanged halveStencil cfgD24S8 rampMemory 3 2 10263966 200
      (by decide)⟩

/-- C7. Shadow depth overwrite: if the incoming depth is below the depth decoded from the
shadow word at the target address and the incoming stencil is 0, then after
`DrawShadowMapPixel` the word decodes to the incoming depth, untruncated (it is below
`2^24`), and the stencil it had before; the stencil byte itself is unchanged. -/
theorem shadow_depth_overwrite (attenuate : Nat → Nat → Nat → Nat → U8 → U8)
    (cfg : FramebufferConfig) (m : Memory) (x y : Int) (depth : Nat) (stencil : U8)
    (hd : depth < (DecodeD24S8Shadow m (shadowPixelAddr cfg x y)).1) (hs : stencil = 0) :
    DecodeD24S8Shadow (DrawShadowMapPixel attenuate cfg m x y depth stencil)
        (shadowPixelAddr cfg x y) =
      (depth, (DecodeD24S8Shadow m (shadowPixelAddr cfg x y)).2) ∧
    DrawShadowMapPixel attenuate cfg m x y depth stencil (shadowPixelAddr cfg x y + 3) =
      m (shadowPixelAddr cfg x y + 3) ∧
    depth < 2 ^ 24 := by
  have hlt := DecodeD24S8Shadow_depth_lt m (shadowPixelAddr cfg x y)
  have hdl : depth < 16777216 := by omega
  have hrun : DrawShadowMapPixel attenuate cfg m x y depth stencil =
      EncodeD24X8Shadow depth m (shadowPixelAddr cfg x y) := by
    unfold shadowPixelAddr at hd ⊢
    simp [DrawShadowMapPixel, hd, hs]
  rw [hrun, DecodeD24S8Shadow_EncodeD24X8Shadow, Nat.mod_eq_of_lt hdl]
  refine ⟨by simp [DecodeD24S8Shadow], by simp [EncodeD24X8Shadow, writeByte], by simpa using hdl⟩

theorem shadow_depth_overwrite_witness :
    (1000 < (DecodeD24S8Shadow rampMemory (shadowPixelAddr cfgD24S8 3 2)).1 ∧
      (0 : U8) = 0) ∧
    (DecodeD24S8Shadow (DrawShadowMapPixel halveStencil cfgD24S8 rampMemory 3 2 1000 0)
        (shadowPixelAddr cfgD24S8 3 2) =
      (1000, (DecodeD24S8Shadow rampMemory (shadowPixelAddr cfgD24S8 3 2)).2) ∧
    DrawShadowMapPixel halveStencil cfgD24S8 rampMemory 3 2 1000 0
        (shadowPixelAddr cfgD24S8 3 2 + 3) =
      rampMemory (shadowPixelAddr cfgD24S8 3 2 + 3) ∧
    1000 < 2 ^ 24) :=
  ⟨⟨by decide, rfl⟩,
    shadow_depth_overwrite halveStencil cfgD24S8 rampMemory 3 2 1000 0 (by decide) rfl⟩

/-- C8. Shadow stencil attenuation branch: if the incoming depth is below the stored depth
and the incoming stencil is not 0, then, whatever stencil `newS` the attenuation yields,
`DrawShadowMapPixel` leaves the three depth bytes of the word as they were; if `newS` is
below the stored stencil the stencil byte becomes `newS` and no other byte of the memory
changes, and otherwise the memory is unchanged. -/
theorem shadow_stencil_branch (attenuate : Nat → Nat → Nat → Nat → U8 → U8)
    (cfg : FramebufferConfig) (m : Memory) (x y : Int) (depth : Nat) (stencil : U8)
    (hd : depth < (DecodeD24S8Shadow m (shadowPixelAddr cfg x y)).1) (hs : stencil ≠ 0) :
    (DrawShadowMapPixel attenuate cfg m x y depth stencil (shadowPixelAddr cfg x y) =
        m (shadowPixelAddr cfg x y) ∧
      DrawShadowMapPixel attenuate cfg m x y depth stencil (shadowPixelAddr cfg x y + 1) =
        m (shadowPixelAddr cfg x y + 1) ∧
      DrawShadowMapPixel attenuate cfg m x y depth stencil (shadowPixelAddr cfg x y + 2) =
        m (shadowPixelAddr cfg x y + 2)) ∧
    ((attenuate cfg.constant cfg.linear depth
          (DecodeD24S8Shadow m (shadowPixelAddr cfg x y)).1 stencil).val <
        (DecodeD24S8Shadow m (shadowPixelAddr cfg x y)).2 →
      DrawShadowMapPixel attenuate cfg m x y depth stencil (shadowPixelAddr cfg x y + 3) =
        attenuate cfg.constant cfg.linear depth
          (DecodeD24S8Shadow m (shadowPixelAddr cfg x y)).1 stencil ∧
      ∀ a, a ≠ shadowPixelAddr cfg x y + 3 →
        DrawShadowMapPixel attenuate cfg m x y depth stencil a = m a) ∧
    (¬ (attenuate cfg.constant cfg.linear depth
          (DecodeD24S8Shadow m (shadowPixelAddr cfg x y)).1 stencil).val <
        (DecodeD24S8Shadow m (shadowPixelAddr cfg x y)).2 →
      DrawShadowMapPixel attenuate cfg m x y depth stencil = m) := by
  unfold shadowPixelAddr at hd ⊢
  by_cases hlt : (attenuate cfg.constant cfg.linear depth
      (DecodeD24S8Shadow m (cfg.color_addr + pixelOffset cfg x y 4)).1 stencil).val <
      (DecodeD24S8Shadow m (cfg.color_addr + pixelOffset cfg x y 4)).2
  · have hrun : DrawShadowMapPixel attenuate cfg m x y depth stencil =
        EncodeX24S8Shadow (attenuate cfg.constant cfg.linear depth
          (DecodeD24S8Shadow m (cfg.color_addr + pixelOffset cfg x y 4)).1 stencil) m
          (cfg.color_addr + pixelOffset cfg x y 4) := by
      simp [DrawShadowMapPixel, hd, hs, hlt]
    rw [hrun]
    refine ⟨by simp [EncodeX24S8Shadow, writeByte], fun _ => ⟨?_, ?_⟩, fun h => absurd hlt h⟩
    · simp [EncodeX24S8Shadow, writeByte]
    · intro a ha
      simp [EncodeX24S8Shadow, writeByte, ha]
  · have hrun : DrawShadowMapPixel attenuate cfg m x y depth stencil = m := by
      simp [DrawShadowMapPixel, hd, hs, hlt]
    rw [hrun]
    exact ⟨⟨rfl, rfl, rfl⟩, fun h => absurd h hlt, fun _ => rfl⟩

theorem shadow_stencil_branch_witness :
    (1000 < (DecodeD24S8Shadow rampMemory (shadowPixelAddr cfgD24S8 3 2)).1 ∧
      (200 : U8) ≠ 0) ∧
    ((DrawShadowMapPixel halveStencil cfgD24S8 rampMemory 3 2 1000 200
          (shadowPixelAddr cfgD24S8 3 2) = rampMemory (shadowPixelAddr cfgD24S8 3 2) ∧
      DrawShadowMapPixel halveStencil cfgD24S8 rampMemory 3 2 1000 200
          (shadowPixelAddr cfgD24S8 3 2 + 1) =
        rampMemory (shadowPixelAddr cfgD24S8 3 2 + 1) ∧
      DrawShadowMapPixel halveStencil cfgD24S8 rampMemory 3 2 1000 200
          (shadowPixelAddr cfgD24S8 3 2 + 2) =
        rampMemory (shadowPixelAddr cfgD24S8 3 2 + 2)) ∧
    ((halveStencil cfgD24S8.constant cfgD24S8.linear 1000
          (DecodeD24S8Shadow rampMemory (shadowPixelAddr cfgD24S8 3 2)).1 200).val <
        (DecodeD24S8Shadow rampMemory (shadowPixelAddr cfgD24S8 3 2)).2 →
      DrawShadowMapPixel halveStencil cfgD24S8 rampMemory 3 2 1000 200
          (shadowPixelAddr cfgD24S8 3 2 + 3) =
        halveStencil cfgD24S8.constant cfgD24S8.linear 1000
          (DecodeD24S8Shadow rampMemory (shadowPixelAddr cfgD24S8 3 2)).1 200 ∧
      ∀ a, a ≠ shadowPixelAddr cfgD24S8 3 2 + 3 →
        DrawShadowMapPixel halveStencil cfgD24S8 rampMemory 3 2 1000 200 a = rampMemory a) ∧
    (¬ (halveStencil cfgD24S8.constant cfgD24S8.linear 1000
          (DecodeD24S8Shadow rampMemory (shadowPixelAddr cfgD24S8 3 2)).1 200).val <
        (DecodeD24S8Shadow rampMemory (shadowPixelAddr cfgD24S8 3 2)).2 →
      DrawShadowMapPixel halveStencil cfgD24S8 rampMemory 3 2 1000 200 = rampMemory)) :=
  ⟨⟨by decide, by decide⟩,
    shadow_stencil_branch halveStencil cfgD24S8 rampMemory 3 2 1000 200 (by decide)
      (by decide)⟩

/-- C9. Shadow word byte layout: for every four bytes `b0..b3` at an address,
`DecodeD24S8Shadow` returns the depth `b0 * 65536 + b1 * 256 + b2` and the stencil `b3`;
decoding after `EncodeD24X8Shadow d` gives the depth `d mod 2^24` and the stencil as it
was; decoding after `EncodeX24S8Shadow s` gives the stencil `s` and the depth as it was. -/
theorem shadow_word_layout (m : Memory) (p : Nat) (d : Nat) (s : U8) :
    DecodeD24S8Shadow m p =
      ((m p).val * 65536 + (m (p + 1)).val * 256 + (m (p + 2)).val, (m (p + 3)).val) ∧
    DecodeD24S8Shadow (EncodeD24X8Shadow d m p) p =
      (d % 2 ^ 24, (DecodeD24S8Shadow m p).2) ∧
    DecodeD24S8Shadow (EncodeX24S8Shadow s m p) p = ((DecodeD24S8Shadow m p).1, s.val) := by
  refine ⟨DecodeD24S8Shadow_eq m p, ?_, DecodeD24S8Shadow_EncodeX24S8Shadow s m p⟩
  rw [DecodeD24S8Shadow_EncodeD24X8Shadow]
  simp [DecodeD24S8Shadow]

/-! ## Blend evaluator -/

theorem clamp_tdiv_add (a b c d : Nat) :
    (intToU8 (clamp (Int.tdiv ((a : Int) * b + (c : Int) * d) 255) 0 255)).val =
      min 255 ((a * b + c * d) / 255) := by
  have hcast : ((a : Int) * b + (c : Int) * d) = ((a * b + c * d : Nat) : Int) := by
    push_cast; rfl
  have hq : Int.tdiv ((a : Int) * b + (c : Int) * d) 255 = (((a * b + c * d) / 255 : Nat) : Int) := by
    rw [hcast]; exact (Int.ofNat_tdiv _ 255).symm
  rw [hq]
  generalize (a * b + c * d) / 255 = q
  simp only [intToU8, toU8, clamp]
  split_ifs with h1 h2 <;> omega

/-- C10. Blend Add: for every `src`, `srcfactor`, `dest`, `destfactor` and every channel
`c`, `EvaluateBlendEquation` with `Add` returns a colour whose channel `c` is
`min(255, floor((src_c * srcfactor_c + dest_c * destfactor_c) / 255))`. -/
theorem blend_add (src srcfactor dest destfactor : Vec4 U8) :
    ∃ res, EvaluateBlendEquation src srcfactor dest destfactor BlendEquation.Add = .ok res ∧
      ∀ c : Fin 4, (res.get c).val =
        min 255 (((src.get c).val * (srcfactor.get c).val +
          (dest.get c).val * (destfactor.get c).val) / 255) := by
  refine ⟨_, rfl, ?_⟩
  intro c
  fin_cases c <;>
    simp only [Vec4.get, Vec4.mulU8, Vec4.add, Vec4.divScalar] <;>
    exact clamp_tdiv_add _ _ _ _

theorem clamp_tdiv_sub (S D : Nat) :
    (intToU8 (clamp (Int.tdiv ((S : Int) - (D : Int)) 255) 0 255)).val =
      min 255 ((S - D) / 255) := by
  rcases Nat.lt_or_ge S D with h | h
  · have hneg : (S : Int) - (D : Int) = -(((D - S : Nat)) : Int) := by omega
    have hq : Int.tdiv ((S : Int) - (D : Int)) 255 = -((((D - S) / 255 : Nat)) : Int) := by
      rw [hneg, Int.neg_tdiv]; exact congrArg _ (Int.ofNat_tdiv _ 255).symm
    have hz : (S - D) / 255 = 0 := by
      rw [Nat.sub_eq_zero_of_le (Nat.le_of_lt h)]
    rw [hq, hz]
    generalize (D - S) / 255 = q
    simp only [intToU8, toU8, clamp]
    split_ifs with h1 h2 <;> omega
  · have hpos : (S : Int) - (D : Int) = (((S - D : Nat)) : Int) := by omega
    have hq : Int.tdiv ((S : Int) - (D : Int)) 255 = ((((S - D) / 255 : Nat)) : Int) := by
      rw [hpos]; exact (Int.ofNat_tdiv _ 255).symm
    rw [hq]
    generalize (S - D) / 255 = q
    simp only [intToU8, toU8, clamp]
    split_ifs with h1 h2 <;> omega

theorem clamp_range (v : Int) : 0 ≤ clamp v 0 255 ∧ clamp v 0 255 ≤ 255 := by
  simp only [clamp]
  split_ifs with h1 h2 <;> omega

theorem intToU8_clamp_val (v : Int) : ((intToU8 (clamp v 0 255)).val : Int) = clamp v 0 255 := by
  obtain ⟨h0, h1⟩ := clamp_range v
  generalize clamp v 0 255 = w at h0 h1
  simp only [intToU8, toU8]
  omega

theorem blendTerm_le (color factor : Vec4 U8) (c : Fin 4) :
    blendTerm color factor c ≤ 65025 := by
  have h1 := (color.get c).isLt
  have h2 := (factor.get c).isLt
  have : (color.get c).val * (factor.get c).val ≤ 255 * 255 :=
    Nat.mul_le_mul (by omega) (by omega)
  simpa [blendTerm] using this

theorem mulU8_get (v w : Vec4 U8) (c : Fin 4) :
    (Vec4.mulU8 v w).get c = (blendTerm v w c : Int) := by
  fin_cases c <;> simp [Vec4.get, Vec4.mulU8, blendTerm]

/-- C11. Blend Subtract and ReverseSubtract: with `S = src_c * srcfactor_c` and
`D = dest_c * destfactor_c`, `Subtract` returns in every channel `c` the value
`clamp(trunc((S - D) / 255), 0, 255)`, which is `floor((S - D) / 255)` when `S >= D` and 0
when `S < D`; `ReverseSubtract` returns the same with `S` and `D` exchanged. -/
theorem blend_subtract (src srcfactor dest destfactor : Vec4 U8) :
    (∃ res,
      EvaluateBlendEquation src srcfactor dest destfactor BlendEquation.Subtract = .ok res ∧
      ∀ c : Fin 4,
        ((res.get c).val : Int) =
          clamp (Int.tdiv ((blendTerm src srcfactor c : Int) -
            (blendTerm dest destfactor c : Int)) 255) 0 255 ∧
        (blendTerm dest destfactor c ≤ blendTerm src srcfactor c →
          (res.get c).val =
            (blendTerm src srcfactor c - blendTerm dest destfactor c) / 255) ∧
        (blendTerm src srcfactor c < blendTerm dest destfactor c → (res.get c).val = 0)) ∧
    (∃ res,
      EvaluateBlendEquation src srcfactor dest destfactor BlendEquation.ReverseSubtract =
        .ok res ∧
      ∀ c : Fin 4,
        ((res.get c).val : Int) =
          clamp (Int.tdiv ((blendTerm dest destfactor c : Int) -
            (blendTerm src srcfactor c : Int)) 255) 0 255 ∧
        (blendTerm src srcfactor c ≤ blendTerm dest destfactor c →
          (res.get c).val =
            (blendTerm dest destfactor c - blendTerm src srcfactor c) / 255) ∧
        (blendTerm dest destfactor c < blendTerm src srcfactor c → (res.get c).val = 0)) := by
  have key : ∀ S D : Nat, S ≤ 65025 →
      ((intToU8 (clamp (Int.tdiv ((S : Int) - (D : Int)) 255) 0 255)).val : Int) =
          clamp (Int.tdiv ((S : Int) - (D : Int)) 255) 0 255 ∧
        (D ≤ S → (intToU8 (clamp (Int.tdiv ((S : Int) - (D : Int)) 255) 0 255)).val =
          (S - D) / 255) ∧
        (S < D → (intToU8 (clamp (Int.tdiv ((S : Int) - (D : Int)) 255) 0 255)).val = 0) := by
    intro S D hS
    refine ⟨intToU8_clamp_val _, fun _ => ?_, fun h => ?_⟩
    · rw [clamp_tdiv_sub]; omega
    · rw [clamp_tdiv_sub, Nat.sub_eq_zero_of_le (Nat.le_of_lt h)]; rfl
  constructor
  · refine ⟨_, rfl, fun c => ?_⟩
    have h := key _ (blendTerm dest destfactor c) (blendTerm_le src srcfactor c)
    fin_cases c <;> simpa [Vec4.get, Vec4.mulU8, Vec4.sub, Vec4.divScalar, blendTerm] using h
  · refine ⟨_, rfl, fun c => ?_⟩
    have h := key _ (blendTerm src srcfactor c) (blendTerm_le dest destfactor c)
    fin_cases c <;> simpa [Vec4.get, Vec4.mulU8, Vec4.sub, Vec4.divScalar, blendTerm] using h

theorem intToU8_clamp_u8 (v : U8) : intToU8 (clamp (v.val : Int) 0 255) = v := by
  apply Fin.ext
  have hv := v.isLt
  simp only [intToU8, toU8, clamp]
  split_ifs with h1 h2 <;> omega

/-- C12. Blend Min/Max ignore the factors: `EvaluateBlendEquation` with `Min` returns one
and the same colour for every pair of factors, and that colour is the channel-wise minimum
of the raw `src` and `dest`; likewise `Max` returns the channel-wise maximum. -/
theorem blend_min_max (src dest : Vec4 U8) :
    (∃ res,
      (∀ srcfactor destfactor,
        EvaluateBlendEquation src srcfactor dest destfactor BlendEquation.Min = .ok res) ∧
      ∀ c : Fin 4, res.get c = min (src.get c) (dest.get c)) ∧
    (∃ res,
      (∀ srcfactor destfactor,
        EvaluateBlendEquation src srcfactor dest destfactor BlendEquation.Max = .ok res) ∧
      ∀ c : Fin 4, res.get c = max (src.get c) (dest.get c)) := by
  constructor
  · refine ⟨⟨min src.r dest.r, min src.g dest.g, min src.b dest.b, min src.a dest.a⟩,
      fun _ _ => ?_, fun c => ?_⟩
    · simp only [EvaluateBlendEquation, intToU8_clamp_u8]
    · fin_cases c <;> rfl
  · refine ⟨⟨max src.r dest.r, max src.g dest.g, max src.b dest.b, max src.a dest.a⟩,
      fun _ _ => ?_, fun c => ?_⟩
    · simp only [EvaluateBlendEquation, intToU8_clamp_u8]
    · fin_cases c <;> rfl

theorem blend_channel_identity (s d : U8) :
    intToU8 (clamp (Int.tdiv ((s.val : Int) * ((255 : U8).val : Int) +
      (d.val : Int) * ((0 : U8).val : Int)) 255) 0 255) = s := by
  apply Fin.ext
  have hs := s.isLt
  have h := clamp_tdiv_add s.val 255 d.val 0
  have e : (s.val * 255 + d.val * 0) / 255 = s.val := by omega
  rw [e] at h
  have h255 : ((255 : U8).val : Int) = ((255 : Nat) : Int) := rfl
  have h0 : ((0 : U8).val : Int) = ((0 : Nat) : Int) := rfl
  rw [h255, h0, h]
  omega

/-- C13. Blend identity: with `srcfactor = (255,255,255,255)` and `destfactor = (0,0,0,0)`,
`EvaluateBlendEquation` with `Add` returns `src` exactly, for every `src` and `dest`; in
particular `src = (255,0,0,255)`, `dest = (0,255,0,255)` gives `(255,0,0,255)`. -/
theorem blend_identity :
    (∀ src dest : Vec4 U8,
      EvaluateBlendEquation src ⟨255, 255, 255, 255⟩ dest ⟨0, 0, 0, 0⟩ BlendEquation.Add =
        .ok src) ∧
    EvaluateBlendEquation ⟨255, 0, 0, 255⟩ ⟨255, 255, 255, 255⟩ ⟨0, 255, 0, 255⟩ ⟨0, 0, 0, 0⟩
      BlendEquation.Add = .ok ⟨255, 0, 0, 255⟩ := by
  have hall : ∀ src dest : Vec4 U8,
      EvaluateBlendEquation src ⟨255, 255, 255, 255⟩ dest ⟨0, 0, 0, 0⟩ BlendEquation.Add =
        .ok src := by
    intro src dest
    cases src with
    | mk r g b a =>
      simp only [EvaluateBlendEquation, Vec4.mulU8, Vec4.add, Vec4.divScalar,
        blend_channel_identity]
  exact ⟨hall, hall _ _⟩

/-! ## Stencil actions -/

theorem intToU8_natCast (n : Nat) : (intToU8 (n : Int)).val = n % 256 := by
  simp only [intToU8, toU8]
  omega

theorem intToU8_lnot (n : Nat) (h : n < 256) : (intToU8 (Int.lnot (n : Int))).val = 255 - n := by
  have e : Int.lnot (n : Int) = -((n : Int) + 1) := Int.negSucc_eq n
  rw [e]
  simp only [intToU8, toU8]
  omega

theorem min_254_val (v : U8) : (min v 254).val = min v.val 254 := by
  rcases le_total v 254 with h | h
  · have h1 : v.val ≤ 254 := h
    rw [min_eq_left h]
    omega
  · have h1 : 254 ≤ v.val := h
    rw [min_eq_right h]
    show 254 = min v.val 254
    omega

theorem max_1_val (v : U8) : (max v 1).val = max v.val 1 := by
  rcases le_total v 1 with h | h
  · have h1 : v.val ≤ 1 := h
    rw [max_eq_right h]
    show 1 = max v.val 1
    omega
  · have h1 : 1 ≤ v.val := h
    rw [max_eq_left h]
    omega

theorem PerformStencilAction_Increment (old ref : U8) :
    Except.map Fin.val (PerformStencilAction StencilAction.Increment old ref) =
      .ok (if old.val < 255 then old.val + 1 else 255) := by
  have h := old.isLt
  have hm := min_254_val old
  simp only [PerformStencilAction, Except.map, intToU8, toU8, hm]
  congr 1
  split_ifs <;> omega

theorem PerformStencilAction_Decrement (old ref : U8) :
    Except.map Fin.val (PerformStencilAction StencilAction.Decrement old ref) =
      .ok (if 0 < old.val then old.val - 1 else 0) := by
  have h := old.isLt
  have hm := max_1_val old
  simp only [PerformStencilAction, Except.map, intToU8, toU8, hm]
  congr 1
  split_ifs <;> omega

/-- C15. Stencil saturation: for every 8-bit `old` and `ref`, `Increment` returns
`old + 1` when `old < 255` and 255 when `old = 255` (so 254 gives 255 and 255 gives 255),
`Decrement` returns `old - 1` when `old > 0` and 0 when `old = 0`, and neither result
depends on `ref`. -/
theorem stencil_saturation (old ref : U8) :
    Except.map Fin.val (PerformStencilAction StencilAction.Increment old ref) =
      .ok (if old.val < 255 then old.val + 1 else 255) ∧
    Except.map Fin.val (PerformStencilAction StencilAction.Decrement old ref) =
      .ok (if 0 < old.val then old.val - 1 else 0) ∧
    PerformStencilAction StencilAction.Increment 254 ref = .ok 255 ∧
    PerformStencilAction StencilAction.Increment 255 ref = .ok 255 ∧
    (∀ ref2 : U8, PerformStencilAction StencilAction.Increment old ref2 =
      PerformStencilAction StencilAction.Increment old ref) ∧
    (∀ ref2 : U8, PerformStencilAction StencilAction.Decrement old ref2 =
      PerformStencilAction StencilAction.Decrement old ref) :=
  ⟨PerformStencilAction_Increment old ref, PerformStencilAction_Decrement old ref, rfl, rfl,
    fun _ => rfl, fun _ => rfl⟩

theorem IncrementWrap_val (old ref : U8) :
    PerformStencilAction StencilAction.IncrementWrap old ref = .ok (toU8 (old.val + 1)) := by
  have h := old.isLt
  simp only [PerformStencilAction, intToU8, toU8]
  congr 2
  omega

theorem DecrementWrap_val (old ref : U8) :
    PerformStencilAction StencilAction.DecrementWrap old ref = .ok (toU8 (old.val + 255)) := by
  have h := old.isLt
  simp only [PerformStencilAction, intToU8, toU8]
  congr 2
  omega

/-- C16. Stencil wrap: for every 8-bit `old` and `ref`, `IncrementWrap` returns
`(old + 1) mod 256` and `DecrementWrap` returns `(old + 255) mod 256`, so
`IncrementWrap(255) = 0` and `DecrementWrap(0) = 255`, and each of the two undoes the
other. -/
theorem stencil_wrap (old ref : U8) :
    Except.map Fin.val (PerformStencilAction StencilAction.IncrementWrap old ref) =
      .ok ((old.val + 1) % 256) ∧
    Except.map Fin.val (PerformStencilAction StencilAction.DecrementWrap old ref) =
      .ok ((old.val + 255) % 256) ∧
    PerformStencilAction StencilAction.IncrementWrap 255 ref = .ok 0 ∧
    PerformStencilAction StencilAction.DecrementWrap 0 ref = .ok 255 ∧
    (PerformStencilAction StencilAction.IncrementWrap old ref).bind
      (fun v => PerformStencilAction StencilAction.DecrementWrap v ref) = .ok old ∧
    (PerformStencilAction StencilAction.DecrementWrap old ref).bind
      (fun v => PerformStencilAction StencilAction.IncrementWrap v ref) = .ok old := by
  have h := old.isLt
  refine ⟨?_, ?_, rfl, rfl, ?_, ?_⟩
  · rw [IncrementWrap_val]; rfl
  · rw [DecrementWrap_val]; rfl
  · rw [IncrementWrap_val]
    show PerformStencilAction StencilAction.DecrementWrap (toU8 (old.val + 1)) ref = .ok old
    rw [DecrementWrap_val]
    congr 1
    apply Fin.ext
    simp only [toU8]
    omega
  · rw [DecrementWrap_val]
    show PerformStencilAction StencilAction.IncrementWrap (toU8 (old.val + 255)) ref = .ok old
    rw [IncrementWrap_val]
    congr 1
    apply Fin.ext
    simp only [toU8]
    omega

/-- C17. Stencil Keep/Zero/Replace/Invert: for every 8-bit `old` and `ref`,
`PerformStencilAction` returns `old` for `Keep` (whatever `ref`), 0 for `Zero`, `ref` for
`Replace` (whatever `old`) and the 8-bit complement `255 - old` for `Invert`. -/
theorem stencil_keep_zero_replace_invert (old ref : U8) :
    (∀ ref2 : U8, PerformStencilAction StencilAction.Keep old ref2 = .ok old) ∧
    PerformStencilAction StencilAction.Zero old ref = .ok 0 ∧
    (∀ old2 : U8, PerformStencilAction StencilAction.Replace old2 ref = .ok ref) ∧
    Except.map Fin.val (PerformStencilAction StencilAction.Invert old ref) =
      .ok (255 - old.val) := by
  refine ⟨fun _ => rfl, rfl, fun _ => rfl, ?_⟩
  simp only [PerformStencilAction, Except.map, intToU8_lnot old.val old.isLt]

/-! ## Logic operations -/

theorem testBit_compl8 (b i : Nat) (hb : b < 256) :
    (255 - b).testBit i = (decide (i < 8) && !b.testBit i) := by
  have e : 255 - b = 2 ^ 8 - (b + 1) := by omega
  rw [e]
  exact Nat.testBit_two_pow_sub_succ (by omega) i

theorem testBit_high8 (a i : Nat) (ha : a < 256) (hi : ¬ i < 8) : a.testBit i = false := by
  apply Nat.testBit_lt_two_pow
  calc a < 2 ^ 8 := by omega
    _ ≤ 2 ^ i := Nat.pow_le_pow_right (by decide) (by omega)

theorem ldiff_eq_and_compl8 (a b : Nat) (ha : a < 256) (hb : b < 256) :
    Nat.ldiff a b = a &&& (255 - b) := by
  apply Nat.eq_of_testBit_eq
  intro i
  rw [Nat.testBit_ldiff, Nat.testBit_land, testBit_compl8 b i hb]
  by_cases hi : i < 8
  · simp [hi]
  · simp [hi, testBit_high8 a i ha hi]

theorem ldiff_lt (a b : Nat) (ha : a < 256) (hb : b < 256) : Nat.ldiff a b < 256 := by
  rw [ldiff_eq_and_compl8 a b ha hb]
  exact Nat.lt_of_le_of_lt Nat.and_le_left ha

theorem compl8_ldiff (a b : Nat) (ha : a < 256) (hb : b < 256) :
    255 - Nat.ldiff b a = a ||| (255 - b) := by
  apply Nat.eq_of_testBit_eq
  intro i
  rw [testBit_compl8 _ i (ldiff_lt b a hb ha), Nat.testBit_ldiff, Nat.testBit_lor,
    testBit_compl8 b i hb]
  by_cases hi : i < 8
  · simp [hi]
    cases a.testBit i <;> cases b.testBit i <;> rfl
  · simp [hi, testBit_high8 a i ha hi]

theorem intToU8_negSucc (n : Nat) (h : n < 256) : (intToU8 (Int.negSucc n)).val = 255 - n := by
  rw [Int.negSucc_eq]
  simp only [intToU8, toU8]
  omega

theorem LogicOp_and_family (src dest : U8) :
    Except.map Fin.val (LogicOp src dest FramebufferRegs.LogicOp.And) =
      .ok (src.val &&& dest.val) ∧
    Except.map Fin.val (LogicOp src dest FramebufferRegs.LogicOp.Nand) =
      .ok (255 - (src.val &&& dest.val)) ∧
    Except.map Fin.val (LogicOp src dest FramebufferRegs.LogicOp.AndReverse) =
      .ok (src.val &&& (255 - dest.val)) ∧
    Except.map Fin.val (LogicOp src dest FramebufferRegs.LogicOp.AndInverted) =
      .ok ((255 - src.val) &&& dest.val) := by
  have hs := src.isLt
  have hd := dest.isLt
  have hand : src.val &&& dest.val < 256 := Nat.lt_of_le_of_lt Nat.and_le_left hs
  refine ⟨?_, ?_, ?_, ?_⟩
  · show Except.ok (intToU8 ((src.val &&& dest.val : Nat) : Int)).val = _
    rw [intToU8_natCast, Nat.mod_eq_of_lt hand]
  · show Except.ok (intToU8 (Int.negSucc (src.val &&& dest.val))).val = _
    rw [intToU8_negSucc _ hand]
  · show Except.ok (intToU8 ((Nat.ldiff src.val dest.val : Nat) : Int)).val = _
    rw [intToU8_natCast, Nat.mod_eq_of_lt (ldiff_lt _ _ hs hd), ldiff_eq_and_compl8 _ _ hs hd]
  · show Except.ok (intToU8 ((Nat.ldiff dest.val src.val : Nat) : Int)).val = _
    rw [intToU8_natCast, Nat.mod_eq_of_lt (ldiff_lt _ _ hd hs), ldiff_eq_and_compl8 _ _ hd hs,
      Nat.land_comm]

theorem LogicOp_or_family (src dest : U8) :
    Except.map Fin.val (LogicOp src dest FramebufferRegs.LogicOp.Or) =
      .ok (src.val ||| dest.val) ∧
    Except.map Fin.val (LogicOp src dest FramebufferRegs.LogicOp.Nor) =
      .ok (255 - (src.val ||| dest.val)) ∧
    Except.map Fin.val (LogicOp src dest FramebufferRegs.LogicOp.OrReverse) =
      .ok (src.val ||| (255 - dest.val)) ∧
    Except.map Fin.val (LogicOp src dest FramebufferRegs.LogicOp.OrInverted) =
      .ok ((255 - src.val) ||| dest.val) := by
  have hs := src.isLt
  have hd := dest.isLt
  have hor : src.val ||| dest.val < 256 :=
    Nat.or_lt_two_pow (n := 8) (by omega) (by omega)
  refine ⟨?_, ?_, ?_, ?_⟩
  · show Except.ok (intToU8 ((src.val ||| dest.val : Nat) : Int)).val = _
    rw [intToU8_natCast, Nat.mod_eq_of_lt hor]
  · show Except.ok (intToU8 (Int.negSucc (src.val ||| dest.val))).val = _
    rw [intToU8_negSucc _ hor]
  · show Except.ok (intToU8 (Int.negSucc (Nat.ldiff dest.val src.val))).val = _
    rw [intToU8_negSucc _ (ldiff_lt _ _ hd hs), compl8_ldiff _ _ hs hd]
  · show Except.ok (intToU8 (Int.negSucc (Nat.ldiff src.val dest.val))).val = _
    rw [intToU8_negSucc _ (ldiff_lt _ _ hs hd), compl8_ldiff _ _ hd hs, Nat.lor_comm]

theorem LogicOp_xor_family (src dest : U8) :
    Except.map Fin.val (LogicOp src dest FramebufferRegs.LogicOp.Xor) =
      .ok (src.val ^^^ dest.val) ∧
    Except.map Fin.val (LogicOp src dest FramebufferRegs.LogicOp.Equiv) =
      .ok (255 - (src.val ^^^ dest.val)) ∧
    Except.map Fin.val (LogicOp src dest FramebufferRegs.LogicOp.CopyInverted) =
      .ok (255 - src.val) ∧
    Except.map Fin.val (LogicOp src dest FramebufferRegs.LogicOp.Invert) =
      .ok (255 - dest.val) := by
  have hs := src.isLt
  have hd := dest.isLt
  have hxor : src.val ^^^ dest.val < 256 :=
    Nat.xor_lt_two_pow (n := 8) (by omega) (by omega)
  refine ⟨?_, ?_, ?_, ?_⟩
  · show Except.ok (intToU8 ((src.val ^^^ dest.val : Nat) : Int)).val = _
    rw [intToU8_natCast, Nat.mod_eq_of_lt hxor]
  · show Except.ok (intToU8 (Int.negSucc (src.val ^^^ dest.val))).val = _
    rw [intToU8_negSucc _ hxor]
  · show Except.ok (intToU8 (Int.negSucc src.val)).val = _
    rw [intToU8_negSucc _ hs]
  · show Except.ok (intToU8 (Int.negSucc dest.val)).val = _
    rw [intToU8_negSucc _ hd]

/-- C14. Logic-op truth table: for every 8-bit `src` and `dest`, `LogicOp` returns
Clear -> 0, Set -> 0xFF, Copy -> src, CopyInverted -> not src, NoOp -> dest,
Invert -> not dest, And -> src and dest, Nand -> not (src and dest),
AndReverse -> src and not dest, AndInverted -> not src and dest, Or -> src or dest,
Nor -> not (src or dest), OrReverse -> src or not dest, OrInverted -> not src or dest,
Xor -> src xor dest, Equiv -> not (src xor dest), where `not v` is the 8-bit complement
`255 - v`; every returned value is in `[0, 255]`. -/
theorem LogicOp_truth_table (src dest : U8) :
    LogicOp src dest FramebufferRegs.LogicOp.Clear = .ok 0 ∧
    LogicOp src dest FramebufferRegs.LogicOp.Set = .ok 0xFF ∧
    LogicOp src dest FramebufferRegs.LogicOp.Copy = .ok src ∧
    Except.map Fin.val (LogicOp src dest FramebufferRegs.LogicOp.CopyInverted) =
      .ok (255 - src.val) ∧
    LogicOp src dest FramebufferRegs.LogicOp.NoOp = .ok dest ∧
    Except.map Fin.val (LogicOp src dest FramebufferRegs.LogicOp.Invert) =
      .ok (255 - dest.val) ∧
    Except.map Fin.val (LogicOp src dest FramebufferRegs.LogicOp.And) =
      .ok (src.val &&& dest.val) ∧
    Except.map Fin.val (LogicOp src dest FramebufferRegs.LogicOp.Nand) =
      .ok (255 - (src.val &&& dest.val)) ∧
    Except.map Fin.val (LogicOp src dest FramebufferRegs.LogicOp.AndReverse) =
      .ok (src.val &&& (255 - dest.val)) ∧
    Except.map Fin.val (LogicOp src dest FramebufferRegs.LogicOp.AndInverted) =
      .ok ((255 - src.val) &&& dest.val) ∧
    Except.map Fin.val (LogicOp src dest FramebufferRegs.LogicOp.Or) =
      .ok (src.val ||| dest.val) ∧
    Except.map Fin.val (LogicOp src dest FramebufferRegs.LogicOp.Nor) =
      .ok (255 - (src.val ||| dest.val)) ∧
    Except.map Fin.val (LogicOp src dest FramebufferRegs.LogicOp.OrReverse) =
      .ok (src.val ||| (255 - dest.val)) ∧
    Except.map Fin.val (LogicOp src dest FramebufferRegs.LogicOp.OrInverted) =
      .ok ((255 - src.val) ||| dest.val) ∧
    Except.map Fin.val (LogicOp src dest FramebufferRegs.LogicOp.Xor) =
      .ok (src.val ^^^ dest.val) ∧
    Except.map Fin.val (LogicOp src dest FramebufferRegs.LogicOp.Equiv) =
      .ok (255 - (src.val ^^^ dest.val)) ∧
    ∀ op r, LogicOp src dest op = .ok r → r.val ≤ 255 := by
  obtain ⟨hAnd, hNand, hAndRev, hAndInv⟩ := LogicOp_and_family src dest
  obtain ⟨hOr, hNor, hOrRev, hOrInv⟩ := LogicOp_or_family src dest
  obtain ⟨hXor, hEquiv, hCopyInv, hInv⟩ := LogicOp_xor_family src dest
  exact ⟨rfl, rfl, rfl, hCopyInv, rfl, hInv, hAnd, hNand, hAndRev, hAndInv, hOr, hNor,
    hOrRev, hOrInv, hXor, hEquiv, fun _ r _ => Nat.le_of_lt_succ r.isLt⟩

/-! ## Tiled addressing -/

theorem and_mask8 (n : Nat) (h : n < 4294967296) : n &&& 4294967288 = n - n % 8 := by
  have e : n - n % 8 = (n >>> 3) <<< 3 := by
    rw [Nat.shiftRight_eq_div_pow, Nat.shiftLeft_eq]; omega
  have hm : ∀ i, (4294967288 : Nat).testBit i = (decide (i < 32) && !decide (i < 3)) := by
    intro i
    have h1 := Nat.testBit_two_pow_sub_succ (x := 7) (n := 32) (by decide) i
    have h2 : (7 : Nat).testBit i = decide (i < 3) := Nat.testBit_two_pow_sub_one 3 i
    rw [h2] at h1
    exact h1
  rw [e]
  apply Nat.eq_of_testBit_eq
  intro i
  rw [Nat.testBit_land, Nat.testBit_shiftLeft, Nat.testBit_shiftRight, hm]
  by_cases h3 : i < 3
  · have : ¬ i ≥ 3 := by omega
    simp [h3, this]
  · have h3' : i ≥ 3 := by omega
    have e3 : 3 + (i - 3) = i := by omega
    by_cases h32 : i < 32
    · simp [h3, h3', h32, e3]
    · have hz : n.testBit i = false := by
        apply Nat.testBit_lt_two_pow
        calc n < 2 ^ 32 := h
          _ ≤ 2 ^ i := Nat.pow_le_pow_right (by decide) (by omega)
      simp [h3, h3', h32, e3, hz]

theorem MortonInterleave_mod (x y : Nat) :
    MortonInterleave x (y % 4294967296) = MortonInterleave x y := by
  simp only [MortonInterleave]
  omega

theorem flipY_eq (height : Nat) (y : Int) (hy : y ≤ height) :
    flipY height y = ((height : Int) - y).toNat % 4294967296 := by
  simp only [flipY, intToU32]
  omega

/-- The offset computed in the source equals the specification's `Offset`. -/
theorem pixelOffset_eq_Offset (cfg : FramebufferConfig) (x y : Int) (bpp : Nat)
    (hy : y ≤ cfg.height) :
    pixelOffset cfg x y bpp = Offset x y bpp cfg.width cfg.height := by
  simp only [pixelOffset, Offset, flipY_eq cfg.height y hy]
  generalize ((cfg.height : Int) - y).toNat = H
  have hlt : H % 4294967296 < 4294967296 := Nat.mod_lt _ (by decide)
  have hG : GetMortonOffset (intToU32 x) (H % 4294967296) bpp =
      GetMortonOffset (intToU32 x) H bpp := by
    simp only [GetMortonOffset, MortonInterleave_mod]
  have hband : (H % 4294967296 - H % 4294967296 % 8) = (H - H % 8) % 4294967296 := by
    omega
  rw [hG, and_mask8 _ hlt, hband]
  simp only [U32]
  generalize GetMortonOffset (intToU32 x) H bpp = G
  generalize H - H % 8 = A
  have h1 : A % 4294967296 * cfg.width % 4294967296 = A * cfg.width % 4294967296 := by
    rw [Nat.mul_mod, Nat.mod_mod, ← Nat.mul_mod]
  have h2 : A * cfg.width % 4294967296 * bpp % 4294967296 =
      A * cfg.width * bpp % 4294967296 := by
    rw [Nat.mul_mod, Nat.mod_mod, ← Nat.mul_mod]
  rw [h1, h2]
  generalize A * cfg.width * bpp = X
  omega

/-- C18. Tiled offset formula: for every configuration and pixel `(x, y)` with
`0 <= y <= height`, each of `DrawPixel`, `GetPixel`, `GetDepth`, `GetStencil`, `SetDepth`,
`SetStencil` and `DrawShadowMapPixel` reads or writes its pixel at the byte offset
`Offset(x, y, bpp, width, height) = Morton(x, y1, bpp) + (y1 & ~7) * width * bpp` from the
start of its buffer, where `y1 = height - y` and `bpp` is the byte width of the format of
the buffer (4 on the shadow path); a getter and the matching setter therefore address the
same offset. The offset is a 32-bit quantity: it is the value of the formula whenever that
value is below `2^32`. -/
theorem tiled_offset_formula (cfg : FramebufferConfig) (m : Memory) (x y : Int)
    (hy : 0 ≤ y ∧ y ≤ cfg.height) :
    (∀ color : Vec4 U8,
      (cfg.color_format = ColorFormat.RGBA8 → DrawPixel cfg m x y color =
        .ok (EncodeRGBA8 color m (cfg.color_addr + Offset x y 4 cfg.width cfg.height))) ∧
      (cfg.color_format = ColorFormat.RGB8 → DrawPixel cfg m x y color =
        .ok (EncodeRGB8 color m (cfg.color_addr + Offset x y 3 cfg.width cfg.height))) ∧
      (cfg.color_format = ColorFormat.RGB5A1 → DrawPixel cfg m x y color =
        .ok (EncodeRGB5A1 color m (cfg.color_addr + Offset x y 2 cfg.width cfg.height))) ∧
      (cfg.color_format = ColorFormat.RGB565 → DrawPixel cfg m x y color =
        .ok (EncodeRGB565 color m (cfg.color_addr + Offset x y 2 cfg.width cfg.height))) ∧
      (cfg.color_format = ColorFormat.RGBA4 → DrawPixel cfg m x y color =
        .ok (EncodeRGBA4 color m (cfg.color_addr + Offset x y 2 cfg.width cfg.height)))) ∧
    ((cfg.color_format = ColorFormat.RGBA8 → GetPixel cfg m x y =
        .ok (DecodeRGBA8 m (cfg.color_addr + Offset x y 4 cfg.width cfg.height))) ∧
      (cfg.color_format = ColorFormat.RGB8 → GetPixel cfg m x y =
        .ok (DecodeRGB8 m (cfg.color_addr + Offset x y 3 cfg.width cfg.height))) ∧
      (cfg.color_format = ColorFormat.RGB5A1 → GetPixel cfg m x y =
        .ok (DecodeRGB5A1 m (cfg.color_addr + Offset x y 2 cfg.width cfg.height))) ∧
      (cfg.color_format = ColorFormat.RGB565 → GetPixel cfg m x y =
        .ok (DecodeRGB565 m (cfg.color_addr + Offset x y 2 cfg.width cfg.height))) ∧
      (cfg.color_format = ColorFormat.RGBA4 → GetPixel cfg m x y =
        .ok (DecodeRGBA4 m (cfg.color_addr + Offset x y 2 cfg.width cfg.height)))) ∧
    ((cfg.depth_format = DepthFormat.D16 → GetDepth cfg m x y =
        .ok (DecodeD16 m (cfg.depth_addr + Offset x y 2 cfg.width cfg.height))) ∧
      (cfg.depth_format = DepthFormat.D24 → GetDepth cfg m x y =
        .ok (DecodeD24 m (cfg.depth_addr + Offset x y 3 cfg.width cfg.height))) ∧
      (cfg.depth_format = DepthFormat.D24S8 → GetDepth cfg m x y =
        .ok (DecodeD24S8 m (cfg.depth_addr + Offset x y 4 cfg.width cfg.height)).1)) ∧
    (cfg.depth_format = DepthFormat.D24S8 → GetStencil cfg m x y =
      .ok (toU8 (DecodeD24S8 m (cfg.depth_addr + Offset x y 4 cfg.width cfg.height)).2)) ∧
    (∀ value : Nat,
      (cfg.depth_format = DepthFormat.D16 → SetDepth cfg m x y value =
        .ok (EncodeD16 value m (cfg.depth_addr + Offset x y 2 cfg.width cfg.height))) ∧
      (cfg.depth_format = DepthFormat.D24 → SetDepth cfg m x y value =
        .ok (EncodeD24 value m (cfg.depth_addr + Offset x y 3 cfg.width cfg.height))) ∧
      (cfg.depth_format = DepthFormat.D24S8 → SetDepth cfg m x y value =
        .ok (EncodeD24X8 value m (cfg.depth_addr + Offset x y 4 cfg.width cfg.height)))) ∧
    (∀ value : U8, cfg.depth_format = DepthFormat.D24S8 → SetStencil cfg m x y value =
      .ok (EncodeX24S8 value m (cfg.depth_addr + Offset x y 4 cfg.width cfg.height))) ∧
    (∀ (attenuate : Nat → Nat → Nat → Nat → U8 → U8) (depth : Nat) (stencil : U8),
      DrawShadowMapPixel attenuate cfg m x y depth stencil =
        if depth ≥
            (DecodeD24S8Shadow m (cfg.color_addr + Offset x y 4 cfg.width cfg.height)).1 then
          m
        else if stencil = 0 then
          EncodeD24X8Shadow depth m (cfg.color_addr + Offset x y 4 cfg.width cfg.height)
        else if
            (attenuate cfg.constant cfg.linear depth
              (DecodeD24S8Shadow m (cfg.color_addr + Offset x y 4 cfg.width cfg.height)).1
              stencil).val <
            (DecodeD24S8Shadow m (cfg.color_addr + Offset x y 4 cfg.width cfg.height)).2 then
          EncodeX24S8Shadow
            (attenuate cfg.constant cfg.linear depth
              (DecodeD24S8Shadow m (cfg.color_addr + Offset x y 4 cfg.width cfg.height)).1
              stencil)
            m (cfg.color_addr + Offset x y 4 cfg.width cfg.height)
        else m) ∧
    (∀ bpp : Nat,
      GetMortonOffset (intToU32 x) ((cfg.height : Int) - y).toNat bpp +
          (((cfg.height : Int) - y).toNat - ((cfg.height : Int) - y).toNat % 8) *
            cfg.width * bpp < 2 ^ 32 →
      Offset x y bpp cfg.width cfg.height =
        GetMortonOffset (intToU32 x) ((cfg.height : Int) - y).toNat bpp +
          (((cfg.height : Int) - y).toNat - ((cfg.height : Int) - y).toNat % 8) *
            cfg.width * bpp) := by
  have hO : ∀ bpp, pixelOffset cfg x y bpp = Offset x y bpp cfg.width cfg.height :=
    fun bpp => pixelOffset_eq_Offset cfg x y bpp hy.2
  refine ⟨fun color => ⟨?_, ?_, ?_, ?_, ?_⟩, ⟨?_, ?_, ?_, ?_, ?_⟩, ⟨?_, ?_, ?_⟩, ?_,
    fun value => ⟨?_, ?_, ?_⟩, fun value => ?_, fun attenuate depth stencil => ?_,
    fun bpp hlt => ?_⟩
  iterate 5 (intro hfmt; simp only [DrawPixel, hfmt, BytesPerPixel, hO])
  iterate 5 (intro hfmt; simp only [GetPixel, hfmt, BytesPerPixel, hO])
  iterate 3 (intro hfmt; simp only [GetDepth, hfmt, BytesPerDepthPixel, hO])
  · intro hfmt; simp only [GetStencil, hfmt, BytesPerDepthPixel, hO]
  iterate 3 (intro hfmt; simp only [SetDepth, hfmt, BytesPerDepthPixel, hO])
  · intro hfmt; simp only [SetStencil, hfmt, BytesPerDepthPixel, hO]
  · simp only [DrawShadowMapPixel, hO]
  · simp only [Offset, U32]
    exact Nat.mod_eq_of_lt (by simpa using hlt)

theorem tiled_offset_formula_witness :
    (0 ≤ (2 : Int) ∧ (2 : Int) ≤ cfgD24S8.height) ∧
    GetPixel cfgD24S8 rampMemory 3 2 =
      .ok (DecodeRGBA8 rampMemory (cfgD24S8.color_addr + Offset 3 2 4 cfgD24S8.width
        cfgD24S8.height)) ∧
    SetDepth cfgD24S8 rampMemory 3 2 513 =
      .ok (EncodeD24X8 513 rampMemory (cfgD24S8.depth_addr + Offset 3 2 4 cfgD24S8.width
        cfgD24S8.height)) ∧
    Offset 3 2 4 cfgD24S8.width cfgD24S8.height = 156 :=
  ⟨⟨by decide, by decide⟩,
    (tiled_offset_formula cfgD24S8 rampMemory 3 2 ⟨by decide, by decide⟩).2.1.1 rfl,
    ((tiled_offset_formula cfgD24S8 rampMemory 3 2 ⟨by decide, by decide⟩).2.2.2.2.1 513).2.2
      rfl,
    by decide⟩

/-- The anchor `Offset(0, 0, 4, 8, 8) == 0` of C19 fails: for `width = 8`, `height = 8` and
4 bytes per pixel, neither the specification's `Offset` nor the offset computed by the
source for pixel `(0, 0)` is 0. -/
theorem anchor_offset_not_zero :
    ¬ (Offset 0 0 4 8 8 = 0) ∧ ¬ (pixelOffset cfgTile8 0 0 4 = 0) := by
  decide

/-- C19 (amended). Tiling anchor: for an 8x8 tile (`width = 8`, `height = 8`) at 4 bytes per
pixel, the offset computed for pixel `(0, 0)` is 256, because the flip `y1 = height - y = 8`
puts the pixel at the start of the second band of 8 rows; the offset 0 is that of pixel
`(0, 8)`. `DrawPixel` writes at these offsets. -/
theorem tiling_anchor :
    Offset 0 0 4 8 8 = 256 ∧ Offset 0 8 4 8 8 = 0 ∧
    pixelOffset cfgTile8 0 0 4 = 256 ∧ pixelOffset cfgTile8 0 8 4 = 0 ∧
    (∀ (m : Memory) (color : Vec4 U8),
      DrawPixel cfgTile8 m 0 0 color = .ok (EncodeRGBA8 color m 256)) ∧
    (∀ (m : Memory) (color : Vec4 U8),
      DrawPixel cfgTile8 m 0 8 color = .ok (EncodeRGBA8 color m 0)) := by
  refine ⟨by decide, by decide, by decide, by decide, fun m color => ?_, fun m color => ?_⟩
  · have h : pixelOffset cfgTile8 0 0 4 = 256 := by decide
    have hf : cfgTile8.color_format = ColorFormat.RGBA8 := rfl
    have ha : cfgTile8.color_addr = 0 := rfl
    simp only [DrawPixel, hf, BytesPerPixel, h, ha]
  · have h : pixelOffset cfgTile8 0 8 4 = 0 := by decide
    have hf : cfgTile8.color_format = ColorFormat.RGBA8 := rfl
    have ha : cfgTile8.color_addr = 0 := rfl
    simp only [DrawPixel, hf, BytesPerPixel, h, ha]

/-! ## Colour codec -/

theorem or_eq_add_of_dvd (k X lo : Nat) (hX : 2 ^ k ∣ X) (hlo : lo < 2 ^ k) :
    X ||| lo = X + lo := by
  obtain ⟨q, rfl⟩ := hX
  exact (Nat.mul_add_lt_is_or hlo q).symm

theorem read16_write16 (w : Nat) (m : Memory) (p : Nat) :
    read16 (write16 w m p) p = w % 65536 := by
  have h0 : (write16 w m p p).val = w % 65536 % 256 := by
    simp [write16, writeByte, toU8]
  have h1 : (write16 w m p (p + 1)).val = w % 65536 / 256 % 256 := by
    simp [write16, writeByte, toU8, Nat.shiftRight_eq_div_pow]
  simp only [read16, h0, h1]
  rw [or2_eq _ _ (Nat.mod_lt _ (by decide))]
  omega

theorem write16_write16 (w : Nat) (m : Memory) (p : Nat) :
    write16 w (write16 w m p) p = write16 w m p := by
  funext a
  simp only [write16, writeByte]
  split_ifs <;> rfl

theorem Convert8To5_val (v : U8) : (Convert8To5 v).val = v.val / 8 := by
  have h := v.isLt
  simp only [Convert8To5, toU8, Nat.shiftRight_eq_div_pow]
  omega

theorem Convert8To6_val (v : U8) : (Convert8To6 v).val = v.val / 4 := by
  have h := v.isLt
  simp only [Convert8To6, toU8, Nat.shiftRight_eq_div_pow]
  omega

theorem Convert8To4_val (v : U8) : (Convert8To4 v).val = v.val / 16 := by
  have h := v.isLt
  simp only [Convert8To4, toU8, Nat.shiftRight_eq_div_pow]
  omega

theorem Convert8To1_val (v : U8) : (Convert8To1 v).val = v.val / 128 := by
  have h := v.isLt
  simp only [Convert8To1, toU8, Nat.shiftRight_eq_div_pow]
  omega

theorem Convert5To8_val (w : U8) (hw : w.val < 32) :
    (Convert5To8 w).val = w.val * 8 + w.val / 4 := by
  have e : (w.val <<< 3) ||| (w.val >>> 2) = w.val * 8 + w.val / 4 := by
    rw [Nat.shiftLeft_eq w.val 3, Nat.shiftRight_eq_div_pow,
      or_eq_add_of_dvd 3 (w.val * 2 ^ 3) (w.val / 2 ^ 2) (by omega) (by omega)]
  show ((w.val <<< 3) ||| (w.val >>> 2)) % 256 = _
  rw [e]
  omega

theorem Convert6To8_val (w : U8) (hw : w.val < 64) :
    (Convert6To8 w).val = w.val * 4 + w.val / 16 := by
  have e : (w.val <<< 2) ||| (w.val >>> 4) = w.val * 4 + w.val / 16 := by
    rw [Nat.shiftLeft_eq w.val 2, Nat.shiftRight_eq_div_pow,
      or_eq_add_of_dvd 2 (w.val * 2 ^ 2) (w.val / 2 ^ 4) (by omega) (by omega)]
  show ((w.val <<< 2) ||| (w.val >>> 4)) % 256 = _
  rw [e]
  omega

theorem Convert4To8_val (w : U8) (hw : w.val < 16) :
    (Convert4To8 w).val = w.val * 16 + w.val := by
  have e : (w.val <<< 4) ||| w.val = w.val * 16 + w.val := by
    rw [Nat.shiftLeft_eq w.val 4,
      or_eq_add_of_dvd 4 (w.val * 2 ^ 4) w.val (by omega) (by omega)]
  show ((w.val <<< 4) ||| w.val) % 256 = _
  rw [e]
  omega

theorem Convert1To8_val (w : U8) (hw : w.val < 2) : (Convert1To8 w).val = w.val * 255 := by
  show (w.val * 255) % 256 = _
  omega

theorem Convert8To5_Convert5To8 (v : U8) :
    Convert8To5 (Convert5To8 (Convert8To5 v)) = Convert8To5 v := by
  apply Fin.ext
  have h := v.isLt
  have hw := Convert8To5_val v
  rw [Convert8To5_val, Convert5To8_val _ (by omega)]
  omega

theorem Convert8To6_Convert6To8 (v : U8) :
    Convert8To6 (Convert6To8 (Convert8To6 v)) = Convert8To6 v := by
  apply Fin.ext
  have h := v.isLt
  have hw := Convert8To6_val v
  rw [Convert8To6_val, Convert6To8_val _ (by omega)]
  omega

theorem Convert8To4_Convert4To8 (v : U8) :
    Convert8To4 (Convert4To8 (Convert8To4 v)) = Convert8To4 v := by
  apply Fin.ext
  have h := v.isLt
  have hw := Convert8To4_val v
  rw [Convert8To4_val, Convert4To8_val _ (by omega)]
  omega

theorem Convert8To1_Convert1To8 (v : U8) :
    Convert8To1 (Convert1To8 (Convert8To1 v)) = Convert8To1 v := by
  apply Fin.ext
  have h := v.isLt
  have hw := Convert8To1_val v
  rw [Convert8To1_val, Convert1To8_val _ (by omega)]
  omega

theorem pack5551 (a b c d : Nat) (hb : b < 32) (hc : c < 32) (hd : d < 2) :
    (a <<< 11) ||| (b <<< 6) ||| (c <<< 1) ||| d = a * 2048 + b * 64 + c * 2 + d := by
  have e1 : a <<< 11 = a * 2048 := Nat.shiftLeft_eq a 11
  have e2 : b <<< 6 = b * 64 := Nat.shiftLeft_eq b 6
  have e3 : c <<< 1 = c * 2 := Nat.shiftLeft_eq c 1
  rw [e1, e2, e3, or_eq_add_of_dvd 11 (a * 2048) (b * 64) (by omega) (by omega),
    or_eq_add_of_dvd 6 (a * 2048 + b * 64) (c * 2) (by omega) (by omega),
    or_eq_add_of_dvd 1 (a * 2048 + b * 64 + c * 2) d (by omega) (by omega)]

theorem pack565 (a b c : Nat) (hb : b < 64) (hc : c < 32) :
    (a <<< 11) ||| (b <<< 5) ||| c = a * 2048 + b * 32 + c := by
  have e1 : a <<< 11 = a * 2048 := Nat.shiftLeft_eq a 11
  have e2 : b <<< 5 = b * 32 := Nat.shiftLeft_eq b 5
  rw [e1, e2, or_eq_add_of_dvd 11 (a * 2048) (b * 32) (by omega) (by omega),
    or_eq_add_of_dvd 5 (a * 2048 + b * 32) c (by omega) (by omega)]

theorem pack4444 (a b c d : Nat) (hb : b < 16) (hc : c < 16) (hd : d < 16) :
    (a <<< 12) ||| (b <<< 8) ||| (c <<< 4) ||| d = a * 4096 + b * 256 + c * 16 + d := by
  have e1 : a <<< 12 = a * 4096 := Nat.shiftLeft_eq a 12
  have e2 : b <<< 8 = b * 256 := Nat.shiftLeft_eq b 8
  have e3 : c <<< 4 = c * 16 := Nat.shiftLeft_eq c 4
  rw [e1, e2, e3, or_eq_add_of_dvd 12 (a * 4096) (b * 256) (by omega) (by omega),
    or_eq_add_of_dvd 8 (a * 4096 + b * 256) (c * 16) (by omega) (by omega),
    or_eq_add_of_dvd 4 (a * 4096 + b * 256 + c * 16) d (by omega) (by omega)]

theorem field_eq (w s k : Nat) : (w >>> s) &&& (2 ^ k - 1) = w / 2 ^ s % 2 ^ k := by
  rw [Nat.shiftRight_eq_div_pow, Nat.and_pow_two_sub_one_eq_mod]

theorem low_field_eq (w k : Nat) : w &&& (2 ^ k - 1) = w % 2 ^ k :=
  Nat.and_pow_two_sub_one_eq_mod w k

/-- Decoding an RGB5A1 pixel that was just encoded gives every channel truncated and
expanded again. -/
theorem DecodeRGB5A1_EncodeRGB5A1 (c : Vec4 U8) (m : Memory) (p : Nat) :
    DecodeRGB5A1 (EncodeRGB5A1 c m p) p =
      ⟨Convert5To8 (Convert8To5 c.r), Convert5To8 (Convert8To5 c.g),
        Convert5To8 (Convert8To5 c.b), Convert1To8 (Convert8To1 c.a)⟩ := by
  have hr := c.r.isLt
  have hg := c.g.isLt
  have hb := c.b.isLt
  have ha := c.a.isLt
  have hA := Convert8To5_val c.r
  have hB := Convert8To5_val c.g
  have hC := Convert8To5_val c.b
  have hD := Convert8To1_val c.a
  simp only [DecodeRGB5A1, EncodeRGB5A1, read16_write16]
  generalize Convert8To5 c.r = A at hA ⊢
  generalize Convert8To5 c.g = B at hB ⊢
  generalize Convert8To5 c.b = C at hC ⊢
  generalize Convert8To1 c.a = D at hD ⊢
  rw [pack5551 A.val B.val C.val D.val (by omega) (by omega) (by omega)]
  generalize hw : (A.val * 2048 + B.val * 64 + C.val * 2 + D.val) % 65536 = w
  have f1 : toU8 ((w >>> 11) &&& 0x1F) = A := by
    apply Fin.ext
    show ((w >>> 11) &&& 0x1F) % 256 = A.val
    have e : (w >>> 11) &&& 0x1F = w / 2048 % 32 := field_eq w 11 5
    rw [e]
    omega
  have f2 : toU8 ((w >>> 6) &&& 0x1F) = B := by
    apply Fin.ext
    show ((w >>> 6) &&& 0x1F) % 256 = B.val
    have e : (w >>> 6) &&& 0x1F = w / 64 % 32 := field_eq w 6 5
    rw [e]
    omega
  have f3 : toU8 ((w >>> 1) &&& 0x1F) = C := by
    apply Fin.ext
    show ((w >>> 1) &&& 0x1F) % 256 = C.val
    have e : (w >>> 1) &&& 0x1F = w / 2 % 32 := field_eq w 1 5
    rw [e]
    omega
  have f4 : toU8 (w &&& 0x1) = D := by
    apply Fin.ext
    show (w &&& 0x1) % 256 = D.val
    have e : w &&& 0x1 = w % 2 := low_field_eq w 1
    rw [e]
    omega
  rw [f1, f2, f3, f4]

/-- Decoding an RGB565 pixel that was just encoded gives every stored channel truncated
and expanded again, and an opaque alpha. -/
theorem DecodeRGB565_EncodeRGB565 (c : Vec4 U8) (m : Memory) (p : Nat) :
    DecodeRGB565 (EncodeRGB565 c m p) p =
      ⟨Convert5To8 (Convert8To5 c.r), Convert6To8 (Convert8To6 c.g),
        Convert5To8 (Convert8To5 c.b), 255⟩ := by
  have hr := c.r.isLt
  have hg := c.g.isLt
  have hb := c.b.isLt
  have hA := Convert8To5_val c.r
  have hB := Convert8To6_val c.g
  have hC := Convert8To5_val c.b
  simp only [DecodeRGB565, EncodeRGB565, read16_write16]
  generalize Convert8To5 c.r = A at hA ⊢
  generalize Convert8To6 c.g = B at hB ⊢
  generalize Convert8To5 c.b = C at hC ⊢
  rw [pack565 A.val B.val C.val (by omega) (by omega)]
  generalize hw : (A.val * 2048 + B.val * 32 + C.val) % 65536 = w
  have f1 : toU8 ((w >>> 11) &&& 0x1F) = A := by
    apply Fin.ext
    show ((w >>> 11) &&& 0x1F) % 256 = A.val
    have e : (w >>> 11) &&& 0x1F = w / 2048 % 32 := field_eq w 11 5
    rw [e]
    omega
  have f2 : toU8 ((w >>> 5) &&& 0x3F) = B := by
    apply Fin.ext
    show ((w >>> 5) &&& 0x3F) % 256 = B.val
    have e : (w >>> 5) &&& 0x3F = w / 32 % 64 := field_eq w 5 6
    rw [e]
    omega
  have f3 : toU8 (w &&& 0x1F) = C := by
    apply Fin.ext
    show (w &&& 0x1F) % 256 = C.val
    have e : w &&& 0x1F = w % 32 := low_field_eq w 5
    rw [e]
    omega
  rw [f1, f2, f3]

/-- Decoding an RGBA4 pixel that was just encoded gives every channel truncated and
expanded again. -/
theorem DecodeRGBA4_EncodeRGBA4 (c : Vec4 U8) (m : Memory) (p : Nat) :
    DecodeRGBA4 (EncodeRGBA4 c m p) p =
      ⟨Convert4To8 (Convert8To4 c.r), Convert4To8 (Convert8To4 c.g),
        Convert4To8 (Convert8To4 c.b), Convert4To8 (Convert8To4 c.a)⟩ := by
  have hr := c.r.isLt
  have hg := c.g.isLt
  have hb := c.b.isLt
  have ha := c.a.isLt
  have hA := Convert8To4_val c.r
  have hB := Convert8To4_val c.g
  have hC := Convert8To4_val c.b
  have hD := Convert8To4_val c.a
  simp only [DecodeRGBA4, EncodeRGBA4, read16_write16]
  generalize Convert8To4 c.r = A at hA ⊢
  generalize Convert8To4 c.g = B at hB ⊢
  generalize Convert8To4 c.b = C at hC ⊢
  generalize Convert8To4 c.a = D at hD ⊢
  rw [pack4444 A.val B.val C.val D.val (by omega) (by omega) (by omega)]
  generalize hw : (A.val * 4096 + B.val * 256 + C.val * 16 + D.val) % 65536 = w
  have f1 : toU8 ((w >>> 12) &&& 0xF) = A := by
    apply Fin.ext
    show ((w >>> 12) &&& 0xF) % 256 = A.val
    have e : (w >>> 12) &&& 0xF = w / 4096 % 16 := field_eq w 12 4
    rw [e]
    omega
  have f2 : toU8 ((w >>> 8) &&& 0xF) = B := by
    apply Fin.ext
    show ((w >>> 8) &&& 0xF) % 256 = B.val
    have e : (w >>> 8) &&& 0xF = w / 256 % 16 := field_eq w 8 4
    rw [e]
    omega
  have f3 : toU8 ((w >>> 4) &&& 0xF) = C := by
    apply Fin.ext
    show ((w >>> 4) &&& 0xF) % 256 = C.val
    have e : (w >>> 4) &&& 0xF = w / 16 % 16 := field_eq w 4 4
    rw [e]
    omega
  have f4 : toU8 (w &&& 0xF) = D := by
    apply Fin.ext
    show (w &&& 0xF) % 256 = D.val
    have e : w &&& 0xF = w % 16 := low_field_eq w 4
    rw [e]
    omega
  rw [f1, f2, f3, f4]

theorem DecodeRGBA8_EncodeRGBA8 (c : Vec4 U8) (m : Memory) (p : Nat) :
    DecodeRGBA8 (EncodeRGBA8 c m p) p = c := by
  cases c with
  | mk r g b a => simp [DecodeRGBA8, EncodeRGBA8, writeByte]

theorem DecodeRGB8_EncodeRGB8 (c : Vec4 U8) (m : Memory) (p : Nat) :
    DecodeRGB8 (EncodeRGB8 c m p) p = ⟨c.r, c.g, c.b, 255⟩ := by
  cases c with
  | mk r g b a => simp [DecodeRGB8, EncodeRGB8, writeByte]

theorem EncodeRGBA8_idem (c : Vec4 U8) (m : Memory) (p : Nat) :
    EncodeRGBA8 c (EncodeRGBA8 c m p) p = EncodeRGBA8 c m p := by
  funext a
  simp only [EncodeRGBA8, writeByte]
  split_ifs <;> rfl

theorem EncodeRGB8_idem (c : Vec4 U8) (m : Memory) (p : Nat) :
    EncodeRGB8 c (EncodeRGB8 c m p) p = EncodeRGB8 c m p := by
  funext a
  simp only [EncodeRGB8, writeByte]
  split_ifs <;> rfl

/-- For each of the five formats, encoding the colour decoded from a freshly encoded pixel
writes the same bytes as encoding the original colour, into any memory. -/
theorem Encode_Decode_Encode (c : Vec4 U8) (m m2 : Memory) (p q : Nat) :
    EncodeRGBA8 (DecodeRGBA8 (EncodeRGBA8 c m p) p) m2 q = EncodeRGBA8 c m2 q ∧
    EncodeRGB8 (DecodeRGB8 (EncodeRGB8 c m p) p) m2 q = EncodeRGB8 c m2 q ∧
    EncodeRGB5A1 (DecodeRGB5A1 (EncodeRGB5A1 c m p) p) m2 q = EncodeRGB5A1 c m2 q ∧
    EncodeRGB565 (DecodeRGB565 (EncodeRGB565 c m p) p) m2 q = EncodeRGB565 c m2 q ∧
    EncodeRGBA4 (DecodeRGBA4 (EncodeRGBA4 c m p) p) m2 q = EncodeRGBA4 c m2 q := by
  refine ⟨?_, ?_, ?_, ?_, ?_⟩
  · rw [DecodeRGBA8_EncodeRGBA8]
  · rw [DecodeRGB8_EncodeRGB8]; rfl
  · rw [DecodeRGB5A1_EncodeRGB5A1]
    simp only [EncodeRGB5A1, Convert8To5_Convert5To8, Convert8To1_Convert1To8]
  · rw [DecodeRGB565_EncodeRGB565]
    simp only [EncodeRGB565, Convert8To5_Convert5To8, Convert8To6_Convert6To8]
  · rw [DecodeRGBA4_EncodeRGBA4]
    simp only [EncodeRGBA4, Convert8To4_Convert4To8]

/-- C20. Colour round-trip idempotence: for each of the five colour formats, every
colour `c`, memory and pixel, `DrawPixel(c)` succeeds, `GetPixel` then returns a colour
`c1`, encoding `c1` writes the same bytes as encoding `c` (into any memory:
`Encode(Decode(Encode(c))) == Encode(c)`), and `DrawPixel(c1)` after `DrawPixel(c)` leaves
the memory exactly as `DrawPixel(c)` alone left it. -/
theorem color_roundtrip_idempotent (cfg : FramebufferConfig) (m : Memory) (x y : Int)
    (c : Vec4 U8)
    (hfmt : cfg.color_format = ColorFormat.RGBA8 ∨ cfg.color_format = ColorFormat.RGB8 ∨
      cfg.color_format = ColorFormat.RGB5A1 ∨ cfg.color_format = ColorFormat.RGB565 ∨
      cfg.color_format = ColorFormat.RGBA4) :
    ∃ m1 c1, DrawPixel cfg m x y c = .ok m1 ∧ GetPixel cfg m1 x y = .ok c1 ∧
      (∀ m2, DrawPixel cfg m2 x y c1 = DrawPixel cfg m2 x y c) ∧
      DrawPixel cfg m1 x y c1 = .ok m1 := by
  rcases hfmt with h | h | h | h | h
  · refine ⟨_, _, by simp only [DrawPixel, h, BytesPerPixel]; rfl,
      by simp only [GetPixel, h, BytesPerPixel]; rfl, fun m2 => ?_, ?_⟩
    · simp only [DrawPixel, h, BytesPerPixel, (Encode_Decode_Encode c m m2 _ _).1]
    · simp only [DrawPixel, h, BytesPerPixel, (Encode_Decode_Encode c m _ _ _).1,
        EncodeRGBA8_idem]
  · refine ⟨_, _, by simp only [DrawPixel, h, BytesPerPixel]; rfl,
      by simp only [GetPixel, h, BytesPerPixel]; rfl, fun m2 => ?_, ?_⟩
    · simp only [DrawPixel, h, BytesPerPixel, (Encode_Decode_Encode c m m2 _ _).2.1]
    · simp only [DrawPixel, h, BytesPerPixel, (Encode_Decode_Encode c m _ _ _).2.1,
        EncodeRGB8_idem]
  · refine ⟨_, _, by simp only [DrawPixel, h, BytesPerPixel]; rfl,
      by simp only [GetPixel, h, BytesPerPixel]; rfl, fun m2 => ?_, ?_⟩
    · simp only [DrawPixel, h, BytesPerPixel, (Encode_Decode_Encode c m m2 _ _).2.2.1]
    · simp only [DrawPixel, h, BytesPerPixel, (Encode_Decode_Encode c m _ _ _).2.2.1]
      simp only [EncodeRGB5A1, write16_write16]
  · refine ⟨_, _, by simp only [DrawPixel, h, BytesPerPixel]; rfl,
      by simp only [GetPixel, h, BytesPerPixel]; rfl, fun m2 => ?_, ?_⟩
    · simp only [DrawPixel, h, BytesPerPixel, (Encode_Decode_Encode c m m2 _ _).2.2.2.1]
    · simp only [DrawPixel, h, BytesPerPixel, (Encode_Decode_Encode c m _ _ _).2.2.2.1]
      simp only [EncodeRGB565, write16_write16]
  · refine ⟨_, _, by simp only [DrawPixel, h, BytesPerPixel]; rfl,
      by simp only [GetPixel, h, BytesPerPixel]; rfl, fun m2 => ?_, ?_⟩
    · simp only [DrawPixel, h, BytesPerPixel, (Encode_Decode_Encode c m m2 _ _).2.2.2.2]
    · simp only [DrawPixel, h, BytesPerPixel, (Encode_Decode_Encode c m _ _ _).2.2.2.2]
      simp only [EncodeRGBA4, write16_write16]

theorem color_roundtrip_idempotent_witness :
    (cfgRGB565.color_format = ColorFormat.RGBA8 ∨
      cfgRGB565.color_format = ColorFormat.RGB8 ∨
      cfgRGB565.color_format = ColorFormat.RGB5A1 ∨
      cfgRGB565.color_format = ColorFormat.RGB565 ∨
      cfgRGB565.color_format = ColorFormat.RGBA4) ∧
    ∃ m1 c1, DrawPixel cfgRGB565 rampMemory 3 2 ⟨200, 100, 50, 7⟩ = .ok m1 ∧
      GetPixel cfgRGB565 m1 3 2 = .ok c1 ∧
      (∀ m2, DrawPixel cfgRGB565 m2 3 2 c1 =
        DrawPixel cfgRGB565 m2 3 2 ⟨200, 100, 50, 7⟩) ∧
      DrawPixel cfgRGB565 m1 3 2 c1 = .ok m1 :=
  ⟨Or.inr (Or.inr (Or.inr (Or.inl rfl))),
    color_roundtrip_idempotent cfgRGB565 rampMemory 3 2 ⟨200, 100, 50, 7⟩
      (Or.inr (Or.inr (Or.inr (Or.inl rfl))))⟩

/-! ## Unsupported selectors and totality -/

/-- C21. Unsupported colour format is fatal: for every colour selector outside the five
supported formats, `DrawPixel` ends in the fatal condition, returning no memory (nothing
is written), and `GetPixel` ends in the fatal condition instead of returning a colour. -/
theorem unsupported_color_format_fatal (cfg : FramebufferConfig) (m : Memory) (x y : Int)
    (color : Vec4 U8) (raw : Nat) (hfmt : cfg.color_format = ColorFormat.Unknown raw) :
    DrawPixel cfg m x y color = .error Fault.Unimplemented ∧
    GetPixel cfg m x y = .error Fault.Unimplemented := by
  constructor
  · simp only [DrawPixel, hfmt, BytesPerPixel]
  · simp only [GetPixel, hfmt, BytesPerPixel]

theorem unsupported_color_format_fatal_witness :
    cfgUnknown.color_format = ColorFormat.Unknown 7 ∧
    DrawPixel cfgUnknown rampMemory 3 2 ⟨200, 100, 50, 7⟩ = .error Fault.Unimplemented ∧
    GetPixel cfgUnknown rampMemory 3 2 = .error Fault.Unimplemented :=
  ⟨rfl, unsupported_color_format_fatal cfgUnknown rampMemory 3 2 ⟨200, 100, 50, 7⟩ 7 rfl⟩

/-- C22. Unsupported depth format is fatal: for every depth selector outside D16, D24 and
D24S8, each of `GetDepth`, `GetStencil`, `SetDepth` and `SetStencil` ends in the fatal
condition: no value and no memory is returned. For `GetStencil` the stop is the one of
`BytesPerDepthPixel`; the `default` branch of its own `switch` only warns. -/
theorem unsupported_depth_format_fatal (cfg : FramebufferConfig) (m : Memory) (x y : Int)
    (value : Nat) (stencil : U8) (raw : Nat)
    (hfmt : cfg.depth_format = DepthFormat.Unknown raw) :
    GetDepth cfg m x y = .error Fault.Unimplemented ∧
    GetStencil cfg m x y = .error Fault.Unimplemented ∧
    SetDepth cfg m x y value = .error Fault.Unimplemented ∧
    SetStencil cfg m x y stencil = .error Fault.Unimplemented := by
  refine ⟨?_, ?_, ?_, ?_⟩
  · simp only [GetDepth, hfmt, BytesPerDepthPixel]
  · simp only [GetStencil, hfmt, BytesPerDepthPixel]
  · simp only [SetDepth, hfmt, BytesPerDepthPixel]
  · simp only [SetStencil, hfmt, BytesPerDepthPixel]

theorem unsupported_depth_format_fatal_witness :
    cfgUnknown.depth_format = DepthFormat.Unknown 1 ∧
    GetDepth cfgUnknown rampMemory 3 2 = .error Fault.Unimplemented ∧
    GetStencil cfgUnknown rampMemory 3 2 = .error Fault.Unimplemented ∧
    SetDepth cfgUnknown rampMemory 3 2 513 = .error Fault.Unimplemented ∧
    SetStencil cfgUnknown rampMemory 3 2 200 = .error Fault.Unimplemented :=
  ⟨rfl, unsupported_depth_format_fatal cfgUnknown rampMemory 3 2 513 200 1 rfl⟩

/-- C24. Totality on well-formed inputs: for every logic operation among the sixteen,
every stencil action among the eight and every blend equation among the five, and all
8-bit operands, `LogicOp`, `PerformStencilAction` and `EvaluateBlendEquation` return a
value; in particular `LogicOp` does not reach the `UNREACHABLE()` after its `switch`. -/
theorem total_on_enumerated_selectors (op : FramebufferRegs.LogicOp) (action : StencilAction)
    (equation : BlendEquation) (src dest old_stencil ref : U8)
    (csrc csrcfactor cdest cdestfactor : Vec4 U8)
    (hop : ∀ raw, op ≠ FramebufferRegs.LogicOp.Unknown raw)
    (haction : ∀ raw, action ≠ StencilAction.Unknown raw)
    (hequation : ∀ raw, equation ≠ BlendEquation.Unknown raw) :
    (∃ r, LogicOp src dest op = .ok r) ∧
    LogicOp src dest op ≠ .error Fault.Unreachable ∧
    (∃ r, PerformStencilAction action old_stencil ref = .ok r) ∧
    (∃ r, EvaluateBlendEquation csrc csrcfactor cdest cdestfactor equation = .ok r) := by
  have h1 : ∃ r, LogicOp src dest op = .ok r := by
    cases op with
    | Unknown raw => exact absurd rfl (hop raw)
    | _ => exact ⟨_, rfl⟩
  refine ⟨h1, ?_, ?_, ?_⟩
  · obtain ⟨r, hr⟩ := h1
    rw [hr]
    exact fun h => by cases h
  · cases action with
    | Unknown raw => exact absurd rfl (haction raw)
    | _ => exact ⟨_, rfl⟩
  · cases equation with
    | Unknown raw => exact absurd rfl (hequation raw)
    | _ => exact ⟨_, rfl⟩

theorem total_on_enumerated_selectors_witness :
    ((∀ raw, FramebufferRegs.LogicOp.Xor ≠ FramebufferRegs.LogicOp.Unknown raw) ∧
      (∀ raw, StencilAction.Increment ≠ StencilAction.Unknown raw) ∧
      (∀ raw, BlendEquation.Subtract ≠ BlendEquation.Unknown raw)) ∧
    (∃ r, LogicOp 170 85 FramebufferRegs.LogicOp.Xor = .ok r) ∧
    LogicOp 170 85 FramebufferRegs.LogicOp.Xor ≠ .error Fault.Unreachable ∧
    (∃ r, PerformStencilAction StencilAction.Increment 254 3 = .ok r) ∧
    (∃ r, EvaluateBlendEquation ⟨255, 0, 0, 255⟩ ⟨255, 255, 255, 255⟩ ⟨0, 255, 0, 255⟩
      ⟨0, 0, 0, 0⟩ BlendEquation.Subtract = .ok r) :=
  ⟨⟨(fun _ h => by cases h), (fun _ h => by cases h), (fun _ h => by cases h)⟩,
    total_on_enumerated_selectors FramebufferRegs.LogicOp.Xor StencilAction.Increment
      BlendEquation.Subtract 170 85 254 3 ⟨255, 0, 0, 255⟩ ⟨255, 255, 255, 255⟩
      ⟨0, 255, 0, 255⟩ ⟨0, 0, 0, 0⟩ (fun _ h => by cases h) (fun _ h => by cases h)
      (fun _ h => by cases h)⟩

/-! ## Shadow-map update: monotonicity and the guarded division -/

theorem DrawShadowMapPixel_cases (attenuate : Nat → Nat → Nat → Nat → U8 → U8)
    (cfg : FramebufferConfig) (m : Memory) (x y : Int) (depth : Nat) (stencil : U8) :
    DrawShadowMapPixel attenuate cfg m x y depth stencil = m ∨
    (depth < (DecodeD24S8Shadow m (shadowPixelAddr cfg x y)).1 ∧
      DrawShadowMapPixel attenuate cfg m x y depth stencil =
        EncodeD24X8Shadow depth m (shadowPixelAddr cfg x y)) ∨
    (∃ s : U8, s.val < (DecodeD24S8Shadow m (shadowPixelAddr cfg x y)).2 ∧
      DrawShadowMapPixel attenuate cfg m x y depth stencil =
        EncodeX24S8Shadow s m (shadowPixelAddr cfg x y)) := by
  unfold shadowPixelAddr
  by_cases hd : depth ≥ (DecodeD24S8Shadow m (cfg.color_addr + pixelOffset cfg x y 4)).1
  · exact Or.inl (by simp [DrawShadowMapPixel, hd])
  · by_cases hs : stencil = 0
    · exact Or.inr (Or.inl ⟨by omega, by simp [DrawShadowMapPixel, hd, hs]⟩)
    · by_cases hlt : (attenuate cfg.constant cfg.linear depth
          (DecodeD24S8Shadow m (cfg.color_addr + pixelOffset cfg x y 4)).1 stencil).val <
          (DecodeD24S8Shadow m (cfg.color_addr + pixelOffset cfg x y 4)).2
      · exact Or.inr (Or.inr ⟨_, hlt, by simp [DrawShadowMapPixel, hd, hs, hlt]⟩)
      · exact Or.inl (by simp [DrawShadowMapPixel, hd, hs, hlt])

/-- C26. Shadow map values never increase: for every memory, configuration (any shadow
coefficients, any attenuation result), pixel, depth and stencil, after
`DrawShadowMapPixel` the depth decoded from the target word is at most the depth decoded
before the call, the stencil decoded after is at most the stencil decoded before, and at
most one of the two fields has changed. -/
theorem shadow_values_never_increase (attenuate : Nat → Nat → Nat → Nat → U8 → U8)
    (cfg : FramebufferConfig) (m : Memory) (x y : Int) (depth : Nat) (stencil : U8) :
    (DecodeD24S8Shadow (DrawShadowMapPixel attenuate cfg m x y depth stencil)
        (shadowPixelAddr cfg x y)).1 ≤
      (DecodeD24S8Shadow m (shadowPixelAddr cfg x y)).1 ∧
    (DecodeD24S8Shadow (DrawShadowMapPixel attenuate cfg m x y depth stencil)
        (shadowPixelAddr cfg x y)).2 ≤
      (DecodeD24S8Shadow m (shadowPixelAddr cfg x y)).2 ∧
    ((DecodeD24S8Shadow (DrawShadowMapPixel attenuate cfg m x y depth stencil)
          (shadowPixelAddr cfg x y)).1 =
        (DecodeD24S8Shadow m (shadowPixelAddr cfg x y)).1 ∨
      (DecodeD24S8Shadow (DrawShadowMapPixel attenuate cfg m x y depth stencil)
          (shadowPixelAddr cfg x y)).2 =
        (DecodeD24S8Shadow m (shadowPixelAddr cfg x y)).2) := by
  rcases DrawShadowMapPixel_cases attenuate cfg m x y depth stencil with
    h | ⟨hd, h⟩ | ⟨s, hs, h⟩
  · rw [h]
    exact ⟨Nat.le_refl _, Nat.le_refl _, Or.inl rfl⟩
  · rw [h, DecodeD24S8Shadow_EncodeD24X8Shadow]
    have hmod : depth % 16777216 ≤ depth := Nat.mod_le _ _
    have hs2 : (DecodeD24S8Shadow m (shadowPixelAddr cfg x y)).2 =
        (m (shadowPixelAddr cfg x y + 3)).val := by simp [DecodeD24S8Shadow]
    refine ⟨?_, ?_, Or.inr ?_⟩
    · show depth % 16777216 ≤ _
      omega
    · show (m (shadowPixelAddr cfg x y + 3)).val ≤ _
      omega
    · show (m (shadowPixelAddr cfg x y + 3)).val = _
      omega
  · rw [h, DecodeD24S8Shadow_EncodeX24S8Shadow]
    exact ⟨Nat.le_refl _, Nat.le_of_lt hs, Or.inl rfl⟩

/-- C27. Shadow division is guarded: the result of `DrawShadowMapPixel` depends on the
attenuation (where `depth / ref_z` is computed) only through its values at arguments with
`depth < ref_z`; there `ref_z >= 1`, so the division is never by zero, and the exact
ratio lies in `[0, 1)`. When the stored depth is 0, and for every `depth >= 2^24`, the
call takes the unchanged-pixel branch. -/
theorem shadow_division_guarded (cfg : FramebufferConfig) (m : Memory) (x y : Int)
    (depth : Nat) (stencil : U8) :
    (∀ att1 att2 : Nat → Nat → Nat → Nat → U8 → U8,
      (∀ c l d z s, d < z → att1 c l d z s = att2 c l d z s) →
      DrawShadowMapPixel att1 cfg m x y depth stencil =
        DrawShadowMapPixel att2 cfg m x y depth stencil) ∧
    (depth < (DecodeD24S8Shadow m (shadowPixelAddr cfg x y)).1 →
      1 ≤ (DecodeD24S8Shadow m (shadowPixelAddr cfg x y)).1 ∧
      (0 : ℚ) ≤ (depth : ℚ) / ((DecodeD24S8Shadow m (shadowPixelAddr cfg x y)).1 : ℚ) ∧
      (depth : ℚ) / ((DecodeD24S8Shadow m (shadowPixelAddr cfg x y)).1 : ℚ) < 1) ∧
    ((DecodeD24S8Shadow m (shadowPixelAddr cfg x y)).1 = 0 →
      ∀ att, DrawShadowMapPixel att cfg m x y depth stencil = m) ∧
    (depth ≥ 2 ^ 24 → ∀ att, DrawShadowMapPixel att cfg m x y depth stencil = m) := by
  have hlt := DecodeD24S8Shadow_depth_lt m (shadowPixelAddr cfg x y)
  refine ⟨fun att1 att2 hagree => ?_, fun hd => ⟨by omega, ?_, ?_⟩, fun hz att => ?_,
    fun hbig att => ?_⟩
  · unfold shadowPixelAddr at hlt
    by_cases hd : depth ≥ (DecodeD24S8Shadow m (cfg.color_addr + pixelOffset cfg x y 4)).1
    · simp [DrawShadowMapPixel, hd]
    · have hd2 : depth < (DecodeD24S8Shadow m (cfg.color_addr + pixelOffset cfg x y 4)).1 := by
        omega
      simp only [DrawShadowMapPixel, hagree _ _ _ _ _ hd2]
  · positivity
  · have hpos : (0 : ℚ) < ((DecodeD24S8Shadow m (shadowPixelAddr cfg x y)).1 : ℚ) := by
      have : 0 < (DecodeD24S8Shadow m (shadowPixelAddr cfg x y)).1 := by omega
      exact_mod_cast this
    rw [div_lt_one hpos]
    exact_mod_cast hd
  · unfold shadowPixelAddr at hz
    simp [DrawShadowMapPixel, hz]
  · unfold shadowPixelAddr at hlt
    have hge : depth ≥ (DecodeD24S8Shadow m (cfg.color_addr + pixelOffset cfg x y 4)).1 := by
      have : (2 : Nat) ^ 24 = 16777216 := by norm_num
      omega
    simp [DrawShadowMapPixel, hge]

/-! ## Logic operations: complement pairs -/

theorem ok_of_map_val {e : Except Fault U8} {n : Nat}
    (h : Except.map Fin.val e = .ok n) : ∃ r, e = .ok r ∧ r.val = n := by
  cases e with
  | error f => simp [Except.map] at h
  | ok r =>
    refine ⟨r, rfl, ?_⟩
    simpa [Except.map] using h

theorem complement_pair_of_vals {e1 e2 : Except Fault U8} {n1 n2 : Nat}
    (h1 : Except.map Fin.val e1 = .ok n1) (h2 : Except.map Fin.val e2 = .ok n2)
    (hn : n1 + n2 = 255) :
    ∃ a b, e1 = .ok a ∧ e2 = .ok b ∧ a.val = 255 - b.val ∧ b.val = 255 - a.val := by
  obtain ⟨a, ha, hav⟩ := ok_of_map_val h1
  obtain ⟨b, hb, hbv⟩ := ok_of_map_val h2
  exact ⟨a, b, ha, hb, by omega, by omega⟩

/-- C28. Logic-op complement pairing: for every 8-bit `src` and `dest`, the results of
the two operations of each pair Clear/Set, Copy/CopyInverted, NoOp/Invert, And/Nand,
Or/Nor, Xor/Equiv, AndReverse/OrInverted and AndInverted/OrReverse are 8-bit complements
of each other: each is 255 minus the other. -/
theorem LogicOp_complement_pairs (src dest : U8) :
    (∃ a b, LogicOp src dest FramebufferRegs.LogicOp.Clear = .ok a ∧
      LogicOp src dest FramebufferRegs.LogicOp.Set = .ok b ∧
      a.val = 255 - b.val ∧ b.val = 255 - a.val) ∧
    (∃ a b, LogicOp src dest FramebufferRegs.LogicOp.Copy = .ok a ∧
      LogicOp src dest FramebufferRegs.LogicOp.CopyInverted = .ok b ∧
      a.val = 255 - b.val ∧ b.val = 255 - a.val) ∧
    (∃ a b, LogicOp src dest FramebufferRegs.LogicOp.NoOp = .ok a ∧
      LogicOp src dest FramebufferRegs.LogicOp.Invert = .ok b ∧
      a.val = 255 - b.val ∧ b.val = 255 - a.val) ∧
    (∃ a b, LogicOp src dest FramebufferRegs.LogicOp.And = .ok a ∧
      LogicOp src dest FramebufferRegs.LogicOp.Nand = .ok b ∧
      a.val = 255 - b.val ∧ b.val = 255 - a.val) ∧
    (∃ a b, LogicOp src dest FramebufferRegs.LogicOp.Or = .ok a ∧
      LogicOp src dest FramebufferRegs.LogicOp.Nor = .ok b ∧
      a.val = 255 - b.val ∧ b.val = 255 - a.val) ∧
    (∃ a b, LogicOp src dest FramebufferRegs.LogicOp.Xor = .ok a ∧
      LogicOp src dest FramebufferRegs.LogicOp.Equiv = .ok b ∧
      a.val = 255 - b.val ∧ b.val = 255 - a.val) ∧
    (∃ a b, LogicOp src dest FramebufferRegs.LogicOp.AndReverse = .ok a ∧
      LogicOp src dest FramebufferRegs.LogicOp.OrInverted = .ok b ∧
      a.val = 255 - b.val ∧ b.val = 255 - a.val) ∧
    (∃ a b, LogicOp src dest FramebufferRegs.LogicOp.AndInverted = .ok a ∧
      LogicOp src dest FramebufferRegs.LogicOp.OrReverse = .ok b ∧
      a.val = 255 - b.val ∧ b.val = 255 - a.val) := by
  have hs := src.isLt
  have hd := dest.isLt
  obtain ⟨hAnd, hNand, hAndRev, hAndInv⟩ := LogicOp_and_family src dest
  obtain ⟨hOr, hNor, hOrRev, hOrInv⟩ := LogicOp_or_family src dest
  obtain ⟨hXor, hEquiv, hCopyInv, hInv⟩ := LogicOp_xor_family src dest
  have hand : src.val &&& dest.val < 256 := Nat.lt_of_le_of_lt Nat.and_le_left hs
  have hor : src.val ||| dest.val < 256 :=
    Nat.or_lt_two_pow (n := 8) (by omega) (by omega)
  have hxor : src.val ^^^ dest.val < 256 :=
    Nat.xor_lt_two_pow (n := 8) (by omega) (by omega)
  have hClear : Except.map Fin.val (LogicOp src dest FramebufferRegs.LogicOp.Clear) =
      .ok 0 := rfl
  have hSet : Except.map Fin.val (LogicOp src dest FramebufferRegs.LogicOp.Set) =
      .ok 255 := rfl
  have hCopy : Except.map Fin.val (LogicOp src dest FramebufferRegs.LogicOp.Copy) =
      .ok src.val := rfl
  have hNoOp : Except.map Fin.val (LogicOp src dest FramebufferRegs.LogicOp.NoOp) =
      .ok dest.val := rfl
  -- AndReverse is `ldiff src dest` and OrInverted its complement; likewise the last pair
  have e1 : (255 - src.val) ||| dest.val = 255 - (src.val &&& (255 - dest.val)) := by
    rw [Nat.lor_comm, ← compl8_ldiff dest.val src.val hd hs,
      ldiff_eq_and_compl8 src.val dest.val hs hd]
  have e2 : src.val ||| (255 - dest.val) = 255 - ((255 - src.val) &&& dest.val) := by
    rw [← compl8_ldiff src.val dest.val hs hd, ldiff_eq_and_compl8 dest.val src.val hd hs,
      Nat.land_comm]
  have b1 : src.val &&& (255 - dest.val) < 256 := Nat.lt_of_le_of_lt Nat.and_le_left hs
  have b2 : (255 - src.val) &&& dest.val < 256 := Nat.lt_of_le_of_lt Nat.and_le_right hd
  rw [e1] at hOrInv
  rw [e2] at hOrRev
  exact ⟨complement_pair_of_vals hClear hSet (by omega),
    complement_pair_of_vals hCopy hCopyInv (by omega),
    complement_pair_of_vals hNoOp hInv (by omega),
    complement_pair_of_vals hAnd hNand (by omega),
    complement_pair_of_vals hOr hNor (by omega),
    complement_pair_of_vals hXor hEquiv (by omega),
    complement_pair_of_vals hAndRev hOrInv (by omega),
    complement_pair_of_vals hAndInv hOrRev (by omega)⟩

/-! ## Pixel addresses -/

theorem MortonInterleave_lt (x y : Nat) : MortonInterleave x y < 64 := by
  simp only [MortonInterleave]
  omega

theorem MortonInterleave_inj (x1 y1 x2 y2 : Nat)
    (h : MortonInterleave x1 y1 = MortonInterleave x2 y2) :
    x1 % 8 = x2 % 8 ∧ y1 % 8 = y2 % 8 := by
  have ex1 : x1 % 8 = x1 % 2 + 2 * (x1 / 2 % 2) + 4 * (x1 / 4 % 2) := by omega
  have ex2 : x2 % 8 = x2 % 2 + 2 * (x2 / 2 % 2) + 4 * (x2 / 4 % 2) := by omega
  have ey1 : y1 % 8 = y1 % 2 + 2 * (y1 / 2 % 2) + 4 * (y1 / 4 % 2) := by omega
  have ey2 : y2 % 8 = y2 % 2 + 2 * (y2 / 2 % 2) + 4 * (y2 / 4 % 2) := by omega
  have a0 : x1 % 2 < 2 := Nat.mod_lt _ (by decide)
  have a1 : x1 / 2 % 2 < 2 := Nat.mod_lt _ (by decide)
  have a2 : x1 / 4 % 2 < 2 := Nat.mod_lt _ (by decide)
  have b0 : y1 % 2 < 2 := Nat.mod_lt _ (by decide)
  have b1 : y1 / 2 % 2 < 2 := Nat.mod_lt _ (by decide)
  have b2 : y1 / 4 % 2 < 2 := Nat.mod_lt _ (by decide)
  have c0 : x2 % 2 < 2 := Nat.mod_lt _ (by decide)
  have c1 : x2 / 2 % 2 < 2 := Nat.mod_lt _ (by decide)
  have c2 : x2 / 4 % 2 < 2 := Nat.mod_lt _ (by decide)
  have d0 : y2 % 2 < 2 := Nat.mod_lt _ (by decide)
  have d1 : y2 / 2 % 2 < 2 := Nat.mod_lt _ (by decide)
  have d2 : y2 / 4 % 2 < 2 := Nat.mod_lt _ (by decide)
  simp only [MortonInterleave] at h
  rw [ex1, ex2, ey1, ey2]
  generalize x1 % 2 = A0 at h a0 ⊢
  generalize x1 / 2 % 2 = A1 at h a1 ⊢
  generalize x1 / 4 % 2 = A2 at h a2 ⊢
  generalize y1 % 2 = B0 at h b0 ⊢
  generalize y1 / 2 % 2 = B1 at h b1 ⊢
  generalize y1 / 4 % 2 = B2 at h b2 ⊢
  generalize x2 % 2 = C0 at h c0 ⊢
  generalize x2 / 2 % 2 = C1 at h c1 ⊢
  generalize x2 / 4 % 2 = C2 at h c2 ⊢
  generalize y2 % 2 = D0 at h d0 ⊢
  generalize y2 / 2 % 2 = D1 at h d1 ⊢
  generalize y2 / 4 % 2 = D2 at h d2 ⊢
  omega

theorem pixelIndex_inj (W x1 y1 x2 y2 : Nat) (hW : 8 ∣ W) (hx1 : x1 < W) (hx2 : x2 < W)
    (h : pixelIndex x1 y1 W = pixelIndex x2 y2 W) : x1 = x2 ∧ y1 = y2 := by
  obtain ⟨k, rfl⟩ := hW
  have hi1 := MortonInterleave_lt x1 y1
  have hi2 := MortonInterleave_lt x2 y2
  have ey1 : (y1 - y1 % 8) * (8 * k) = 64 * (k * (y1 / 8)) := by
    have e : y1 - y1 % 8 = 8 * (y1 / 8) := by omega
    rw [e]; ring
  have ey2 : (y2 - y2 % 8) * (8 * k) = 64 * (k * (y2 / 8)) := by
    have e : y2 - y2 % 8 = 8 * (y2 / 8) := by omega
    rw [e]; ring
  simp only [pixelIndex] at h
  rw [ey1, ey2] at h
  have hk : 0 < k := by omega
  have ha1 : x1 / 8 < k := by omega
  have ha2 : x2 / 8 < k := by omega
  generalize hP1 : k * (y1 / 8) = P1 at h
  generalize hP2 : k * (y2 / 8) = P2 at h
  have hMI : MortonInterleave x1 y1 = MortonInterleave x2 y2 := by omega
  have hq : x1 / 8 + P1 = x2 / 8 + P2 := by omega
  obtain ⟨hxm, hym⟩ := MortonInterleave_inj x1 y1 x2 y2 hMI
  have hmod : (x1 / 8 + k * (y1 / 8)) % k = (x2 / 8 + k * (y2 / 8)) % k := by
    rw [hP1, hP2, hq]
  rw [Nat.add_mul_mod_self_left, Nat.add_mul_mod_self_left, Nat.mod_eq_of_lt ha1,
    Nat.mod_eq_of_lt ha2] at hmod
  have hPP : k * (y1 / 8) = k * (y2 / 8) := by omega
  have hb : y1 / 8 = y2 / 8 := Nat.eq_of_mul_eq_mul_left hk hPP
  constructor <;> omega

theorem pixelIndex_lt (W H x y1 : Nat) (hW : 8 ∣ W) (hx : x < W) (hy : y1 ≤ H) :
    pixelIndex x y1 W < 8 * W * (H / 8 + 1) := by
  have hi := MortonInterleave_lt x y1
  have hband : (y1 - y1 % 8) * W ≤ (8 * (H / 8)) * W := Nat.mul_le_mul_right W (by omega)
  have hx8 : x - x % 8 + 8 ≤ W := by omega
  have e : 8 * W * (H / 8 + 1) = (8 * (H / 8)) * W + 8 * W := by ring
  simp only [pixelIndex]
  rw [e]
  generalize (y1 - y1 % 8) * W = P at hband ⊢
  generalize (8 * (H / 8)) * W = Q at hband ⊢
  omega

/-- When the buffer (`height / 8 + 1` bands of `8 * width` pixels) has at most `2^32`
bytes, the offset computed by the source is the pixel index times the bytes per pixel,
without any wrap. -/
theorem pixelOffset_exact (cfg : FramebufferConfig) (x y : Int) (bpp : Nat)
    (hbpp : bpp = 2 ∨ bpp = 3 ∨ bpp = 4) (hW : 8 ∣ cfg.width)
    (hfit : 8 * cfg.width * (cfg.height / 8 + 1) * bpp ≤ 2 ^ 32)
    (hx : 0 ≤ x ∧ x < cfg.width) (hy : 0 ≤ y ∧ y ≤ cfg.height) :
    pixelOffset cfg x y bpp =
      pixelIndex x.toNat ((cfg.height : Int) - y).toNat cfg.width * bpp := by
  have hfit2 : 8 * cfg.width * (cfg.height / 8 + 1) * bpp ≤ 4294967296 := by
    have e : (2 : Nat) ^ 32 = 4294967296 := by norm_num
    omega
  have hWT : cfg.width ≤ 8 * cfg.width * (cfg.height / 8 + 1) := by
    have e : 8 * cfg.width * (cfg.height / 8 + 1) = cfg.width * (8 * (cfg.height / 8 + 1)) := by
      ring
    rw [e]
    exact Nat.le_mul_of_pos_right _ (by omega)
  have hxW : x.toNat < cfg.width := by omega
  have hyH : ((cfg.height : Int) - y).toNat ≤ cfg.height := by omega
  have hidx := pixelIndex_lt cfg.width cfg.height x.toNat _ hW hxW hyH
  have hi := MortonInterleave_lt x.toNat ((cfg.height : Int) - y).toNat
  generalize 8 * cfg.width * (cfg.height / 8 + 1) = T at hidx hfit2 hWT
  have hxn : intToU32 x = x.toNat := by
    simp only [intToU32]
    rcases hbpp with rfl | rfl | rfl <;> omega
  have hmask := and_mask8 x.toNat (by rcases hbpp with rfl | rfl | rfl <;> omega)
  rw [pixelOffset_eq_Offset cfg x y bpp hy.2]
  simp only [Offset, GetMortonOffset, U32, hxn, hmask]
  simp only [pixelIndex] at hidx ⊢
  generalize MortonInterleave x.toNat ((cfg.height : Int) - y).toNat = MI at hi hidx ⊢
  generalize (((cfg.height : Int) - y).toNat - ((cfg.height : Int) - y).toNat % 8) *
    cfg.width = P at hidx ⊢
  generalize x.toNat - x.toNat % 8 = cx at hidx ⊢
  rcases hbpp with rfl | rfl | rfl <;> omega

/-- Two distinct pixels of a buffer of at most `2^32` bytes have disjoint byte ranges. -/
theorem pixelOffset_disjoint (cfg : FramebufferConfig) (x1 y1 x2 y2 : Int) (bpp : Nat)
    (hbpp : bpp = 2 ∨ bpp = 3 ∨ bpp = 4) (hW : 8 ∣ cfg.width)
    (hfit : 8 * cfg.width * (cfg.height / 8 + 1) * bpp ≤ 2 ^ 32)
    (hx1 : 0 ≤ x1 ∧ x1 < cfg.width) (hy1 : 0 ≤ y1 ∧ y1 ≤ cfg.height)
    (hx2 : 0 ≤ x2 ∧ x2 < cfg.width) (hy2 : 0 ≤ y2 ∧ y2 ≤ cfg.height)
    (hne : x1 ≠ x2 ∨ y1 ≠ y2) :
    pixelOffset cfg x1 y1 bpp + bpp ≤ pixelOffset cfg x2 y2 bpp ∨
      pixelOffset cfg x2 y2 bpp + bpp ≤ pixelOffset cfg x1 y1 bpp := by
  rw [pixelOffset_exact cfg x1 y1 bpp hbpp hW hfit hx1 hy1,
    pixelOffset_exact cfg x2 y2 bpp hbpp hW hfit hx2 hy2]
  have hN : pixelIndex x1.toNat ((cfg.height : Int) - y1).toNat cfg.width ≠
      pixelIndex x2.toNat ((cfg.height : Int) - y2).toNat cfg.width := by
    intro h
    obtain ⟨ex, ey⟩ := pixelIndex_inj cfg.width _ _ _ _ hW (by omega) (by omega) h
    omega
  generalize pixelIndex x1.toNat ((cfg.height : Int) - y1).toNat cfg.width = N1 at hN ⊢
  generalize pixelIndex x2.toNat ((cfg.height : Int) - y2).toNat cfg.width = N2 at hN ⊢
  rcases hbpp with rfl | rfl | rfl <;> omega

theorem read16_frame (w : Nat) (m : Memory) (p q : Nat) (hd : p + 2 ≤ q ∨ q + 2 ≤ p) :
    read16 (write16 w m p) q = read16 m q := by
  simp (disch := omega) only [read16, write16, writeByte_other]

theorem DecodeRGBA8_frame (c : Vec4 U8) (m : Memory) (p q : Nat)
    (hd : p + 4 ≤ q ∨ q + 4 ≤ p) :
    DecodeRGBA8 (EncodeRGBA8 c m p) q = DecodeRGBA8 m q := by
  simp (disch := omega) only [DecodeRGBA8, EncodeRGBA8, writeByte_other]

theorem DecodeRGB8_frame (c : Vec4 U8) (m : Memory) (p q : Nat)
    (hd : p + 3 ≤ q ∨ q + 3 ≤ p) :
    DecodeRGB8 (EncodeRGB8 c m p) q = DecodeRGB8 m q := by
  simp (disch := omega) only [DecodeRGB8, EncodeRGB8, writeByte_other]

theorem DecodeRGB5A1_frame (c : Vec4 U8) (m : Memory) (p q : Nat)
    (hd : p + 2 ≤ q ∨ q + 2 ≤ p) :
    DecodeRGB5A1 (EncodeRGB5A1 c m p) q = DecodeRGB5A1 m q := by
  simp only [DecodeRGB5A1, EncodeRGB5A1, read16_frame _ m p q hd]

theorem DecodeRGB565_frame (c : Vec4 U8) (m : Memory) (p q : Nat)
    (hd : p + 2 ≤ q ∨ q + 2 ≤ p) :
    DecodeRGB565 (EncodeRGB565 c m p) q = DecodeRGB565 m q := by
  simp only [DecodeRGB565, EncodeRGB565, read16_frame _ m p q hd]

theorem DecodeRGBA4_frame (c : Vec4 U8) (m : Memory) (p q : Nat)
    (hd : p + 2 ≤ q ∨ q + 2 ≤ p) :
    DecodeRGBA4 (EncodeRGBA4 c m p) q = DecodeRGBA4 m q := by
  simp only [DecodeRGBA4, EncodeRGBA4, read16_frame _ m p q hd]

theorem DecodeD16_frame (v : Nat) (m : Memory) (p q : Nat) (hd : p + 2 ≤ q ∨ q + 2 ≤ p) :
    DecodeD16 (EncodeD16 v m p) q = DecodeD16 m q := by
  simp (disch := omega) only [DecodeD16, EncodeD16, writeByte_other]

theorem DecodeD24_frame (v : Nat) (m : Memory) (p q : Nat) (hd : p + 3 ≤ q ∨ q + 3 ≤ p) :
    DecodeD24 (EncodeD24 v m p) q = DecodeD24 m q := by
  simp (disch := omega) only [DecodeD24, EncodeD24, writeByte_other]

theorem DecodeD24S8_frame (v : Nat) (m : Memory) (p q : Nat) (hd : p + 4 ≤ q ∨ q + 4 ≤ p) :
    DecodeD24S8 (EncodeD24X8 v m p) q = DecodeD24S8 m q := by
  simp (disch := omega) only [DecodeD24S8, EncodeD24X8, writeByte_other]

/-- C29. Pixel addresses do not overlap: for every width that is a positive multiple of
8, every height, every `bpp` in `{2, 3, 4}` and every two distinct pixels with
`0 <= x < width` and `0 <= y <= height`, the byte ranges `[offset, offset + bpp)` computed
by the accessors are disjoint; hence `DrawPixel` at one pixel leaves the colour read by
`GetPixel` at the other unchanged, and `SetDepth` at one pixel leaves the depth read by
`GetDepth` at the other unchanged. The buffer is one that a 32-bit byte offset can address:
its `height / 8 + 1` bands of `8 * width` pixels take at most `2^32` bytes at this `bpp`. -/
theorem pixel_ranges_disjoint (cfg : FramebufferConfig) (bpp : Nat) (x1 y1 x2 y2 : Int)
    (hW : 0 < cfg.width ∧ 8 ∣ cfg.width)
    (hbpp : bpp = 2 ∨ bpp = 3 ∨ bpp = 4)
    (hfit : 8 * cfg.width * (cfg.height / 8 + 1) * bpp ≤ 2 ^ 32)
    (h1 : 0 ≤ x1 ∧ x1 < cfg.width ∧ 0 ≤ y1 ∧ y1 ≤ cfg.height)
    (h2 : 0 ≤ x2 ∧ x2 < cfg.width ∧ 0 ≤ y2 ∧ y2 ≤ cfg.height)
    (hne : (x1, y1) ≠ (x2, y2)) :
    (∀ i j, i < bpp → j < bpp →
      pixelOffset cfg x1 y1 bpp + i ≠ pixelOffset cfg x2 y2 bpp + j) ∧
    (BytesPerPixel cfg.color_format = .ok bpp →
      ∀ (m : Memory) (color : Vec4 U8) (m1 : Memory),
        DrawPixel cfg m x1 y1 color = .ok m1 →
        GetPixel cfg m1 x2 y2 = GetPixel cfg m x2 y2) ∧
    (BytesPerDepthPixel cfg.depth_format = .ok bpp →
      ∀ (m : Memory) (value : Nat) (m1 : Memory),
        SetDepth cfg m x1 y1 value = .ok m1 →
        GetDepth cfg m1 x2 y2 = GetDepth cfg m x2 y2) := by
  have hne2 : x1 ≠ x2 ∨ y1 ≠ y2 := by
    by_contra hcon
    push_neg at hcon
    exact hne (by rw [hcon.1, hcon.2])
  have hdis : pixelOffset cfg x1 y1 bpp + bpp ≤ pixelOffset cfg x2 y2 bpp ∨
      pixelOffset cfg x2 y2 bpp + bpp ≤ pixelOffset cfg x1 y1 bpp :=
    pixelOffset_disjoint cfg x1 y1 x2 y2 bpp hbpp hW.2 hfit
      ⟨h1.1, h1.2.1⟩ ⟨h1.2.2.1, h1.2.2.2⟩ ⟨h2.1, h2.2.1⟩ ⟨h2.2.2.1, h2.2.2.2⟩ hne2
  refine ⟨fun i j hi hj => by omega, fun hb m color m1 h => ?_, fun hb m value m1 h => ?_⟩
  · cases hf : cfg.color_format with
    | RGBA8 =>
      simp only [hf, BytesPerPixel, Except.ok.injEq] at hb
      subst hb
      simp only [DrawPixel, hf, BytesPerPixel, Except.ok.injEq] at h
      subst h
      simp only [GetPixel, hf, BytesPerPixel]
      rw [DecodeRGBA8_frame _ _ _ _ (by omega)]
    | RGB8 =>
      simp only [hf, BytesPerPixel, Except.ok.injEq] at hb
      subst hb
      simp only [DrawPixel, hf, BytesPerPixel, Except.ok.injEq] at h
      subst h
      simp only [GetPixel, hf, BytesPerPixel]
      rw [DecodeRGB8_frame _ _ _ _ (by omega)]
    | RGB5A1 =>
      simp only [hf, BytesPerPixel, Except.ok.injEq] at hb
      subst hb
      simp only [DrawPixel, hf, BytesPerPixel, Except.ok.injEq] at h
      subst h
      simp only [GetPixel, hf, BytesPerPixel]
      rw [DecodeRGB5A1_frame _ _ _ _ (by omega)]
    | RGB565 =>
      simp only [hf, BytesPerPixel, Except.ok.injEq] at hb
      subst hb
      simp only [DrawPixel, hf, BytesPerPixel, Except.ok.injEq] at h
      subst h
      simp only [GetPixel, hf, BytesPerPixel]
      rw [DecodeRGB565_frame _ _ _ _ (by omega)]
    | RGBA4 =>
      simp only [hf, BytesPerPixel, Except.ok.injEq] at hb
      subst hb
      simp only [DrawPixel, hf, BytesPerPixel, Except.ok.injEq] at h
      subst h
      simp only [GetPixel, hf, BytesPerPixel]
      rw [DecodeRGBA4_frame _ _ _ _ (by omega)]
    | Unknown raw =>
      simp only [DrawPixel, hf, BytesPerPixel] at h
      cases h
  · cases hf : cfg.depth_format with
    | D16 =>
      simp only [hf, BytesPerDepthPixel, Except.ok.injEq] at hb
      subst hb
      simp only [SetDepth, hf, BytesPerDepthPixel, Except.ok.injEq] at h
      subst h
      simp only [GetDepth, hf, BytesPerDepthPixel]
      rw [DecodeD16_frame _ _ _ _ (by omega)]
    | D24 =>
      simp only [hf, BytesPerDepthPixel, Except.ok.injEq] at hb
      subst hb
      simp only [SetDepth, hf, BytesPerDepthPixel, Except.ok.injEq] at h
      subst h
      simp only [GetDepth, hf, BytesPerDepthPixel]
      rw [DecodeD24_frame _ _ _ _ (by omega)]
    | D24S8 =>
      simp only [hf, BytesPerDepthPixel, Except.ok.injEq] at hb
      subst hb
      simp only [SetDepth, hf, BytesPerDepthPixel, Except.ok.injEq] at h
      subst h
      simp only [GetDepth, hf, BytesPerDepthPixel]
      rw [DecodeD24S8_frame _ _ _ _ (by omega)]
    | Unknown raw =>
      simp only [SetDepth, hf, BytesPerDepthPixel] at h
      cases h

theorem pixel_ranges_disjoint_witness :
    ((0 < cfgD24S8.width ∧ 8 ∣ cfgD24S8.width) ∧
      ((4 : Nat) = 2 ∨ (4 : Nat) = 3 ∨ (4 : Nat) = 4) ∧
      8 * cfgD24S8.width * (cfgD24S8.height / 8 + 1) * 4 ≤ 2 ^ 32 ∧
      ((0 : Int) ≤ 3 ∧ (3 : Int) < cfgD24S8.width ∧ (0 : Int) ≤ 2 ∧
        (2 : Int) ≤ cfgD24S8.height) ∧
      ((0 : Int) ≤ 4 ∧ (4 : Int) < cfgD24S8.width ∧ (0 : Int) ≤ 2 ∧
        (2 : Int) ≤ cfgD24S8.height) ∧
      ((3 : Int), (2 : Int)) ≠ ((4 : Int), (2 : Int))) ∧
    (∀ i j, i < 4 → j < 4 →
      pixelOffset cfgD24S8 3 2 4 + i ≠ pixelOffset cfgD24S8 4 2 4 + j) ∧
    (∀ (m : Memory) (color : Vec4 U8) (m1 : Memory),
      DrawPixel cfgD24S8 m 3 2 color = .ok m1 →
      GetPixel cfgD24S8 m1 4 2 = GetPixel cfgD24S8 m 4 2) ∧
    (∀ (m : Memory) (value : Nat) (m1 : Memory),
      SetDepth cfgD24S8 m 3 2 value = .ok m1 →
      GetDepth cfgD24S8 m1 4 2 = GetDepth cfgD24S8 m 4 2) :=
  ⟨⟨by decide, by decide, by decide, by decide, by decide, by decide⟩,
    (pixel_ranges_disjoint cfgD24S8 4 3 2 4 2 (by decide) (by decide) (by decide)
      (by decide) (by decide) (by decide)).1,
    (pixel_ranges_disjoint cfgD24S8 4 3 2 4 2 (by decide) (by decide) (by decide)
      (by decide) (by decide) (by decide)).2.1 rfl,
    (pixel_ranges_disjoint cfgD24S8 4 3 2 4 2 (by decide) (by decide) (by decide)
      (by decide) (by decide) (by decide)).2.2 rfl⟩

end SwRenderer
